import Mathlib

set_option maxRecDepth 1000000

/-!
Verification development for the itinerary-synthesis pipeline of the
smart-tourism backend (`Backend/src/services/localAIService.js` together with
the traffic service's `getTrafficTime`).

The JavaScript source is shallowly embedded:
* strings are `String` / `List Char`; all scanning passes work on `List Char`;
* JavaScript numbers appearing in the pipeline are embedded as `Int`
  (all quantities involved are integer minutes / dollars; the scheduler's
  float-of-hours bookkeeping is embedded exactly, in integer minutes, which
  agrees with the source under exact arithmetic);
* `undefined`/missing fields are `Option`; JS truthiness of a number is
  "`some` and nonzero", of a string "`some` and nonempty";
* a thrown exception that is caught by the enclosing `try` is embedded as
  `none` flowing to the catch branch.
-/

/-- JS whitespace class used by the service's regexes (`\s`), restricted to the
code points that can appear in the pipeline's payloads. -/
def isJsWS (c : Char) : Bool :=
  c = ' ' || c = '\t' || c = '\n' || c = '\r' || c.toNat = 11 || c.toNat = 12

/-- Literal left-brace character. -/
def lbrace : Char := '\x7b'

/-- Literal right-brace character. -/
def rbrace : Char := '\x7d'

/-- Lower-casing of a character sequence (JS `String.prototype.toLowerCase`
restricted to ASCII, which is all the service compares). -/
def lowerL (l : List Char) : List Char := l.map Char.toLower

/-- `String` version of `lowerL`. -/
def jsToLower (s : String) : String := String.mk (lowerL s.toList)

/-- JS `a.includes(b)` on `List Char`: is `pat` an infix of `s`? -/
def jsIncludesL (pat : List Char) : List Char → Bool
  | [] => pat.isPrefixOf ([] : List Char)
  | c :: cs => pat.isPrefixOf (c :: cs) || jsIncludesL pat cs

/-- JS `a.includes(b)` on strings. -/
def jsIncludes (s pat : String) : Bool := jsIncludesL pat.toList s.toList

/-- JS `x || d` for a possibly-missing number `x`: `undefined` and `0` are
falsy, any other number is returned unchanged. -/
def jsOrOpt (x : Option Int) (d : Int) : Int :=
  match x with
  | some v => if v = 0 then d else v
  | none => d

/-- JS `x || d` for a number `x` that is present: `0` is falsy. -/
def jsOrI (x d : Int) : Int := if x = 0 then d else x

/-- JS `x || d` for a possibly-missing string: `undefined` and `""` are falsy. -/
def jsStrOr (x : Option String) (d : String) : String :=
  match x with
  | some s => if s = "" then d else s
  | none => d

/-- JS `a > b` where `a` may be `undefined` (`undefined > b` is false). -/
def optGT (a : Option Int) (b : Int) : Bool :=
  match a with
  | some v => v > b
  | none => false

/-- JS `a < b` where `a` may be `undefined` (`undefined < b` is false). -/
def optLT (a : Option Int) (b : Int) : Bool :=
  match a with
  | some v => v < b
  | none => false

/-- JS `parseInt` on a decimal string: leading whitespace is skipped, an
optional `+`/`-` sign is consumed, and the value of the longest digit prefix
is returned; `none` when no digit follows (`NaN`). -/
def jsParseInt (s : String) : Option Int :=
  match s.toList.dropWhile isJsWS with
  | '-' :: rest =>
      let ds := rest.takeWhile Char.isDigit
      if ds = [] then none
      else some (-(ds.foldl (fun acc c => acc * 10 + (c.toNat - '0'.toNat)) 0 : Nat))
  | '+' :: rest =>
      let ds := rest.takeWhile Char.isDigit
      if ds = [] then none
      else some ((ds.foldl (fun acc c => acc * 10 + (c.toNat - '0'.toNat)) 0 : Nat))
  | l =>
      let ds := l.takeWhile Char.isDigit
      if ds = [] then none
      else some ((ds.foldl (fun acc c => acc * 10 + (c.toNat - '0'.toNat)) 0 : Nat))

/-- `s.split(sep)` accumulating the current piece (JS `String.prototype.split`
with a single-character separator). -/
def splitOnCharAux (sep : Char) : List Char → List Char → List (List Char)
  | acc, [] => [acc.reverse]
  | acc, c :: cs =>
      if c = sep then acc.reverse :: splitOnCharAux sep [] cs
      else splitOnCharAux sep (c :: acc) cs

/-- Embedding of the scheduler's `HH:MM` handling: `startTimeStr.split(':')`
followed by `parseInt` on both halves, returned as minutes after midnight.
`none` embeds the `NaN` outcome of a string without a parseable hour/minute
pair. -/
def timeToMin (s : String) : Option Int :=
  match splitOnCharAux ':' [] s.toList with
  | h :: m :: _ =>
      match jsParseInt (String.mk h), jsParseInt (String.mk m) with
      | some hh, some mm => some (hh * 60 + mm)
      | _, _ => none
  | _ => none

/-- JSON values, as produced by `JSON.parse` on the pipeline's payloads
(numbers restricted to the integers, which is all the prompts request and all
the repair passes emit). -/
inductive Json where
  | null : Json
  | bool : Bool → Json
  | num : Int → Json
  | str : String → Json
  | arr : List Json → Json
  | obj : List (String × Json) → Json
  deriving Repr

/-- JS truthiness of a parsed JSON value (`null`, `false`, `0` and `""` are
falsy; every array and object is truthy). -/
def jsTruthy : Json → Bool
  | Json.null => false
  | Json.bool b => b
  | Json.num n => n ≠ 0
  | Json.str s => s ≠ ""
  | Json.arr _ => true
  | Json.obj _ => true

/-- Catalog attraction (reference data; the fields the pipeline reads). -/
structure Attraction where
  id : String
  name : String
  description : Option String
  category : String
  priceRange : String
  estimatedVisitTime : Int
  deriving DecidableEq, Repr

/-- One item of the generator's `selectedAttractions` list, after JSON
deserialization.  `suggestedTime` and `visitOrder` keep the raw JSON value
(JS keeps any truthy value there, of any type); `attractionId` keeps only the
string case, since the strict `===` comparison against catalog ids can match
nothing else; `duration` is embedded in its numeric fragment — generator
payloads carrying a non-numeric truthy duration are outside this embedding,
and the claims over the scheduled clock state that proviso. -/
structure SelectedAttraction where
  attractionId : Option String
  name : Option String
  reason : Option String
  visitOrder : Option Json
  suggestedTime : Option Json
  duration : Option Int
  deriving Repr

/-- The generator's structured trip plan as consumed by
`processDirectTripPlan`. -/
structure AITripPlan where
  selectedAttractions : List SelectedAttraction
  totalDuration : Option Int
  estimatedCost : Option Int
  deriving Repr

/-- One directional route of the traffic matrix (`trafficService`). -/
structure TrafficRoute where
  from' : String
  to' : String
  trafficDuration : Int
  deriving DecidableEq, Repr

/-- The traffic matrix produced by `processTrafficMatrix` (the `routes` field
is what `getTrafficTime` reads). -/
structure TrafficMatrix where
  routes : List TrafficRoute
  deriving DecidableEq, Repr

/-- Weather part of the real-time context (fields the fallback reads). -/
structure WeatherData where
  weatherCondition : Option String
  condition : Option String
  description : Option String
  temperature : Option Int
  uvIndex : Option Int
  airQuality : Option Int
  deriving DecidableEq, Repr

/-- An active alert (only its presence matters to the fallback). -/
structure AlertData where
  title : String
  deriving DecidableEq, Repr

/-- The `realTimeData` argument threaded through the pipeline. -/
structure RealTimeData where
  weather : Option WeatherData
  alerts : Option (List AlertData)
  traffic : Option TrafficMatrix
  deriving DecidableEq, Repr

/-- `{...realTimeData, traffic: trafficData}`. -/
def RealTimeData.withTraffic (rt : RealTimeData) (t : Option TrafficMatrix) : RealTimeData :=
  { rt with traffic := t }

/-- `trafficService.getTrafficTime`: name-based lookup in the traffic matrix;
`0` when the matrix is absent, no route matches, or the matched route has a
nonpositive duration. -/
def getTrafficTime (trafficMatrix : Option TrafficMatrix) (fromName toName : String) : Int :=
  match trafficMatrix with
  | none => 0
  | some m =>
      match m.routes.find? (fun r =>
        (jsIncludes (jsToLower r.from') (jsToLower fromName) ||
         jsIncludes (jsToLower fromName) (jsToLower r.from')) &&
        (jsIncludes (jsToLower r.to') (jsToLower toName) ||
         jsIncludes (jsToLower toName) (jsToLower r.to'))) with
      | some route => if route.trafficDuration > 0 then route.trafficDuration else 0
      | none => 0

/-- Member names a plain JS object literal inherits from `Object.prototype`:
a bracket access with one of these keys walks the prototype chain and returns
the inherited member (a truthy function/object) rather than `undefined`. -/
def objectProtoMembers : List String :=
  ["constructor", "hasOwnProperty", "isPrototypeOf", "propertyIsEnumerable",
   "toLocaleString", "toString", "valueOf", "__defineGetter__", "__defineSetter__",
   "__lookupGetter__", "__lookupSetter__", "__proto__"]

/-- `getPriceEstimate`, i.e. `priceRangeValues[priceRange] || 0` on the fixed
tier table: `some n` when the result is the number `n` (an own entry, or `0`
for an absent plain key); `none` when the bracket access walks the prototype
chain and yields the truthy inherited `Object.prototype` member — a function
or object, not a number — which `|| 0` passes through. -/
def getPriceEstimate (priceRange : String) : Option Int :=
  if priceRange = "free" then some 0
  else if priceRange = "low" then some 25
  else if priceRange = "medium" then some 125
  else if priceRange = "high" then some 350
  else if priceRange = "luxury" then some 750
  else if objectProtoMembers.contains priceRange then none
  else some 0

/-- JS summation `reduce((t, c) => t + c, 0)` over embedded cost values: once
a non-numeric member (embedded `none`) enters, the JS running total stops
being a number (number + object coerces to a string, and a string absorbs all
further additions), so the fold is `none`-absorbing. -/
def optSum (l : List (Option Int)) : Option Int :=
  l.foldl (fun acc x =>
    match acc, x with
    | some a, some b => some (a + b)
    | _, _ => none) (some 0)

/-- JS `x || d` where `x` is an embedded cost aggregate and `d` the recomputed
(possibly non-numeric) sum. -/
def jsOrCost (x : Option Int) (d : Option Int) : Option Int :=
  match x with
  | some v => if v = 0 then d else some v
  | none => d

/-- JS `x || d` where `x` is a raw JSON field value and `d` a number: any
truthy JSON value is kept as is. -/
def jsOrJson (x : Option Json) (d : Int) : Json :=
  match x with
  | some j => if jsTruthy j then j else Json.num d
  | none => Json.num d

/-- JS `<` on two embedded clock values: `false` whenever either side is the
`NaN` clock. -/
def jsLtOpt (a b : Option Int) : Prop :=
  match a, b with
  | some x, some y => x < y
  | _, _ => False

/-- Is this JSON value the number `n`?  (Used to phrase ordinal claims
without deciding full JSON equality.) -/
def jsonIsNum (j : Json) (n : Int) : Bool :=
  match j with
  | Json.num m => m == n
  | _ => false

/-- A scheduled visit as assembled by the pipeline's schedulers.  Times are
minutes after midnight in the code's arithmetic: `some v` is the numeric
clock (the source keeps a float of hours and renders `HH:MM`; under exact
arithmetic that float times 60 is exactly `v`), and `none` is the `NaN`
clock the source produces — without throwing — when the first suggested time
is truthy but unparseable.  `visitOrder`/`priority` carry the raw (possibly
non-numeric) generator value, `estimatedCost` the (possibly non-numeric,
embedded `none`) price lookup. -/
structure PlannedVisit where
  attraction : Attraction
  visitOrder : Json
  aiPriority : Int
  startMin : Option Int
  durationMin : Int
  endMin : Option Int
  estimatedCost : Option Int
  priority : Json
  deriving Repr

/-- `availableAttractions.find(a => a.id === selected.attractionId) ||
availableAttractions[0]`; `none` embeds the crash on an empty catalog
(`undefined` dereferenced downstream, caught by the enclosing `try`). -/
def lookupAttraction (catalog : List Attraction) (aid : Option String) : Option Attraction :=
  match catalog.find? (fun (a : Attraction) => aid == some a.id) with
  | some a => some a
  | none => catalog.head?

/-- Travel time the generator-path scheduler actually uses for the hop to the
next selected item: the traffic lookup only when the matrix exists and the
next item's id is found strictly in the catalog (no head fallback there), and
only when it is positive; otherwise the fixed 90-minute default. -/
def stepTravel (catalog : List Attraction) (traffic : Option TrafficMatrix)
    (current : Attraction) (nextId : Option String) : Int :=
  match traffic, (match nextId with
    | some _ => catalog.find? (fun (a : Attraction) => nextId == some a.id)
    | none => none) with
  | some tm, some nextA =>
      if getTrafficTime (some tm) current.name nextA.name > 0 then
        getTrafficTime (some tm) current.name nextA.name
      else 90
  | _, _ => 90

/-- The travel time as the spec states it for a pair of stops: the matrix
lookup between the two names when positive, else the 90-minute default. -/
def specTravelTime (traffic : Option TrafficMatrix) (fromName toName : String) : Int :=
  if getTrafficTime traffic fromName toName > 0 then getTrafficTime traffic fromName toName
  else 90

/-- `selected.duration || attraction.estimatedVisitTime || 120`. -/
def selDuration (sel : SelectedAttraction) (attraction : Attraction) : Int :=
  jsOrOpt sel.duration (jsOrI attraction.estimatedVisitTime 120)

/-- The visit record `processDirectTripPlan` builds for one selected item at
list index `idx`, starting at clock `ct` (`none` = the NaN clock, which the
source carries through without throwing). -/
def mkVisit (sel : SelectedAttraction) (attraction : Attraction) (idx : Nat)
    (ct : Option Int) : PlannedVisit :=
  { attraction := attraction
    visitOrder := jsOrJson sel.visitOrder ((idx : Int) + 1)
    aiPriority := (idx : Int) + 1
    startMin := ct
    durationMin := selDuration sel attraction
    endMin := ct.map (fun c => c + selDuration sel attraction)
    estimatedCost := getPriceEstimate attraction.priceRange
    priority := jsOrJson sel.visitOrder ((idx : Int) + 1) }

/-- The clock advance after a visit: its duration plus the travel time to the
next selected item (the source only computes the advance when a next item
exists; the zero added on the last item is never consumed). -/
def stepAdvance (catalog : List Attraction) (traffic : Option TrafficMatrix)
    (sel : SelectedAttraction) (attraction : Attraction)
    (rest : List SelectedAttraction) : Int :=
  selDuration sel attraction +
    match rest with
    | [] => 0
    | next :: _ => stepTravel catalog traffic attraction next.attractionId

/-- The per-item loop body of `processDirectTripPlan` (lines 730-795): walks
the generator's selection with the running clock `ct` (minutes) and the item
index, resolving each id against the catalog. -/
def scheduleCore (catalog : List Attraction) (traffic : Option TrafficMatrix) :
    List SelectedAttraction → Nat → Option Int → Option (List PlannedVisit)
  | [], _, _ => some []
  | sel :: rest, idx, ct =>
      match lookupAttraction catalog sel.attractionId with
      | none => none
      | some attraction =>
          (scheduleCore catalog traffic rest (idx + 1)
            (ct.map (fun c => c + stepAdvance catalog traffic sel attraction rest))).map
            (fun vs => mkVisit sel attraction idx ct :: vs)

/-- `startTimeStr = selected.suggestedTime || '09:00'` followed by
`.split(':')` and `parseInt` on the first item: the outer `none` embeds the
`TypeError` thrown when the field holds a truthy non-string (`.split` does
not exist there), caught by the enclosing `try`; `some none` is the NaN
clock of a string that does not parse — the source throws nothing there and
keeps scheduling; `some (some v)` is the numeric clock. -/
def firstStartMin (sug : Option Json) : Option (Option Int) :=
  match sug with
  | none => some (timeToMin "09:00")
  | some j =>
      if jsTruthy j then
        match j with
        | Json.str str => some (timeToMin str)
        | _ => none
      else some (timeToMin "09:00")

/-- `processDirectTripPlan`'s scheduling of the whole selection: the first
item starts at its suggested time (default `09:00`); an unparseable first
time yields the NaN clock and the walk continues, exactly as in the source;
the returned `none` embeds only the thrown-and-caught cases (a truthy
non-string first time, or the empty-catalog crash). -/
def processSchedule (plan : AITripPlan) (catalog : List Attraction)
    (traffic : Option TrafficMatrix) : Option (List PlannedVisit) :=
  match plan.selectedAttractions with
  | [] => some []
  | first :: _ =>
      match firstStartMin first.suggestedTime with
      | none => none
      | some ct0 => scheduleCore catalog traffic plan.selectedAttractions 0 ct0

/-- The first selected item's suggested time parses to a numeric clock (no
`NaN`): the proviso under which the generator-path start times are genuine
numbers rather than the propagated `NaN` clock. -/
def firstTimeParses (plan : AITripPlan) : Prop :=
  ∀ first rest, plan.selectedAttractions = first :: rest →
    ∃ c0, firstStartMin first.suggestedTime = some (some c0)

/-- The day itinerary assembled by `processDirectTripPlan`: its visits and the
aggregate `totalTime` / `totalCost` fields. -/
structure DirectPlan where
  visits : List PlannedVisit
  totalTime : Int
  totalCost : Option Int
  deriving Repr

/-- `processDirectTripPlan` (lines 724-830): schedule the generator's
selection, then fill the day-itinerary totals — the aggregate fields of the
generator output are used whenever truthy, and only otherwise recomputed
(duration from the catalog visit times with a 120 default, cost from the
per-visit estimates). -/
def processDirectTripPlan (plan : AITripPlan) (catalog : List Attraction)
    (traffic : Option TrafficMatrix) : Option DirectPlan :=
  match processSchedule plan catalog traffic with
  | none => none
  | some vs =>
      some { visits := vs
             totalTime := jsOrOpt plan.totalDuration
               ((vs.map (fun v => jsOrI v.attraction.estimatedVisitTime 120)).sum)
             totalCost := jsOrCost plan.estimatedCost (optSum (vs.map (·.estimatedCost))) }

/-- The fallback's weather gate (lines 838-867): `"indoor"`, `"mixed"` or
`"any"` from the weather snapshot and the alert list. -/
def weatherPreference (rt : RealTimeData) : String :=
  match rt.weather with
  | none => "any"
  | some w =>
      let hasAlerts := match rt.alerts with
        | some as => decide (as.length > 0)
        | none => false
      let wc := jsToLower (jsStrOr w.weatherCondition
        (jsStrOr w.condition (jsStrOr w.description "")))
      if jsIncludes wc "rain" || jsIncludes wc "storm" || jsIncludes wc "shower" || hasAlerts then
        "indoor"
      else if optGT w.temperature 30 || optGT w.uvIndex 8 then "mixed"
      else if optLT w.airQuality 50 then "indoor"
      else "any"

/-- The cultural-branch filter of the combined-intent shortcut (lines
877-883). -/
def culturalFilter (wpref : String) (a : Attraction) : Bool :=
  if wpref = "indoor" && !(["museum", "cultural", "shopping"].contains a.category) then
    false
  else
    a.category = "cultural" || jsIncludes (jsToLower a.name) "temple" ||
    jsIncludes (jsToLower a.name) "museum" ||
    jsIncludes (jsToLower a.name) "heritage"

/-- The food-branch filter of the combined-intent shortcut (lines 886-893). -/
def foodFilter (a : Attraction) : Bool :=
  a.category = "food" || jsIncludes (jsToLower a.name) "market" ||
  jsIncludes (jsToLower a.name) "restaurant" ||
  jsIncludes (jsToLower a.name) "dim sum" ||
  jsIncludes (jsToLower a.name) "tea" ||
  (match a.description with
   | some d => jsIncludes (jsToLower d) "dim sum"
   | none => false)

/-- The single-category keyword filter of the fallback's else branch (lines
899-918). -/
def keywordFilter (text : String) (wpref : String) (a : Attraction) : Bool :=
  if wpref = "indoor" &&
      !(["museum", "cultural", "shopping", "food"].contains a.category) then
    false
  else if jsIncludes text "cultural" || jsIncludes text "harbor" ||
      jsIncludes text "history" then
    a.category = "cultural"
  else if jsIncludes text "nature" || jsIncludes text "peak" ||
      jsIncludes text "mountain" then
    wpref ≠ "indoor" && a.category = "nature"
  else if jsIncludes text "food" || jsIncludes text "market" ||
      jsIncludes text "eat" || jsIncludes text "dimsum" then
    a.category = "food"
  else true

/-- Does the request text trigger the cultural+food combined branch (line
873)? -/
def combinedIntent (text : String) : Bool :=
  jsIncludes text "cultural" &&
    (jsIncludes text "dimsum" || jsIncludes text "dim sum" ||
     jsIncludes text "food" || jsIncludes text "lunch")

/-- The pre-top-up selection of the fallback (lines 869-919). -/
def selectFallbackBase (text : String) (catalog : List Attraction)
    (wpref : String) : List Attraction :=
  if combinedIntent text then
    (catalog.filter (culturalFilter wpref)).take 2 ++ (catalog.filter foodFilter).take 2
  else
    (catalog.filter (keywordFilter text wpref)).take 5

/-- The minimum-count top-up of the fallback (lines 921-931): an empty
selection falls back to the first 4 catalog entries; fewer than 3 selections
are topped up from the unselected rest of the catalog. -/
def topUpSelection (catalog selected : List Attraction) : List Attraction :=
  if selected.length = 0 then catalog.take 4
  else if selected.length < 3 then
    selected ++ (catalog.filter
      (fun a => !(selected.any (fun s => s.id = a.id)))).take (4 - selected.length)
  else selected

/-- The fallback's selection policy (lines 869-931): the cultural+food
combined branch, else single-category keyword filtering, then the minimum
count top-up.  `text` is the already lower-cased request text. -/
def selectFallbackAttractions (text : String) (catalog : List Attraction)
    (wpref : String) : List Attraction :=
  topUpSelection catalog (selectFallbackBase text catalog wpref)

/-- The visit record the fallback builds for the stop at index `idx`. -/
def mkFallbackVisit (a : Attraction) (idx : Nat) (ct : Int) : PlannedVisit :=
  { attraction := a
    visitOrder := Json.num ((idx : Int) + 1)
    aiPriority := (idx : Int) + 1
    startMin := some ct
    durationMin := jsOrI a.estimatedVisitTime 120
    endMin := some (ct + jsOrI a.estimatedVisitTime 120)
    estimatedCost := getPriceEstimate a.priceRange
    priority := Json.num ((idx : Int) + 1) }

/-- The fallback's clock advance: visit duration plus the (traffic-aware,
default 90-minute) hop to the next stop; zero travel is added after the last
stop, where the source computes none. -/
def fallbackAdvance (traffic : Option TrafficMatrix) (a : Attraction)
    (rest : List Attraction) : Int :=
  jsOrI a.estimatedVisitTime 120 +
    match rest with
    | [] => 0
    | next :: _ => specTravelTime traffic a.name next.name

/-- The fallback's scheduling loop (lines 937-983): fixed 09:00 start, visit
duration from the catalog (120 default), traffic-aware hop to the next stop
with the 90-minute (1.5-hour) default. -/
def fallbackSchedule (traffic : Option TrafficMatrix) :
    List Attraction → Nat → Int → List PlannedVisit
  | [], _, _ => []
  | a :: rest, idx, ct =>
      mkFallbackVisit a idx ct ::
        fallbackSchedule traffic rest (idx + 1) (ct + fallbackAdvance traffic a rest)

/-- The itinerary returned by the fallback engine. -/
structure FallbackPlan where
  visits : List PlannedVisit
  totalTime : Int
  totalCost : Option Int
  deriving Repr

/-- `getDirectFallbackTripPlan` (lines 835-1023): weather gate, rule-based
selection, scheduling, and recomputed totals (here the duration total sums
the raw catalog visit times, without the 120 default). -/
def getDirectFallbackTripPlan (userText : String) (catalog : List Attraction)
    (rt : RealTimeData) : FallbackPlan :=
  let text := jsToLower userText
  let wpref := weatherPreference rt
  let sel := selectFallbackAttractions text catalog wpref
  let visits := fallbackSchedule rt.traffic sel 0 540
  { visits := visits
    totalTime := (visits.map (·.attraction.estimatedVisitTime)).sum
    totalCost := optSum (visits.map (·.estimatedCost)) }

/-- Runs one global regex replacement: `m` tries to match at the current
position and returns the replacement text plus the remainder after the match
(every matcher consumes at least one character); on no match the character is
copied.  The fuel starts at the input length, which the scan never exhausts
since each step consumes at least one character. -/
def scanReplace (m : List Char → Option (List Char × List Char)) :
    Nat → List Char → List Char
  | 0, l => l
  | _, [] => []
  | fuel + 1, c :: cs =>
      match m (c :: cs) with
      | some (emit, rest) => emit ++ scanReplace m fuel rest
      | none => c :: scanReplace m fuel cs

/-- Wrapper fixing the fuel of `scanReplace` to the input length. -/
def runReplace (m : List Char → Option (List Char × List Char))
    (l : List Char) : List Char :=
  scanReplace m l.length l

/-- `.replace(/\n\s*/g, ' ')`. -/
def mNewlineWS : List Char → Option (List Char × List Char)
  | '\n' :: cs => some ([' '], cs.dropWhile isJsWS)
  | _ => none

/-- `.replace(/\s+/g, ' ')`. -/
def mWSRun : List Char → Option (List Char × List Char)
  | c :: cs => if isJsWS c then some ([' '], cs.dropWhile isJsWS) else none
  | _ => none

/-- `.trim()`. -/
def jsTrim (l : List Char) : List Char :=
  ((l.dropWhile isJsWS).reverse.dropWhile isJsWS).reverse

/-- `.replace(/,(\s*[}\]])/g, '$1')`: a comma whose next non-whitespace
character is a closing brace/bracket is dropped (the whitespace and the
delimiter are kept). -/
def mCommaBeforeClose : List Char → Option (List Char × List Char)
  | ',' :: cs =>
      let ws := cs.takeWhile isJsWS
      match cs.dropWhile isJsWS with
      | d :: rest => if d = rbrace || d = ']' then some (ws ++ [d], rest) else none
      | [] => none
  | _ => none

/-- `.replace(/:\s+"/g, ': "')`. -/
def mColonWSQuote : List Char → Option (List Char × List Char)
  | ':' :: cs =>
      match cs with
      | c :: _ =>
          if isJsWS c then
            match cs.dropWhile isJsWS with
            | '"' :: rest => some ([':', ' ', '"'], rest)
            | _ => none
          else none
      | [] => none
  | _ => none

/-- `.replace(/",\s+/g, '", ')`. -/
def mQuoteCommaWS : List Char → Option (List Char × List Char)
  | '"' :: ',' :: c :: cs =>
      if isJsWS c then some (['"', ',', ' '], cs.dropWhile isJsWS) else none
  | _ => none

/-- `.replace(/,\s*$/, '')`: drop the first comma that is followed only by
whitespace up to the end of the string. -/
def stripTrailingComma : List Char → List Char
  | [] => []
  | c :: cs =>
      if c = ',' && cs.all isJsWS then [] else c :: stripTrailingComma cs

/-- `.replace(/}\s*$/, '}')`: normalize a closing brace followed only by
whitespace at the end. -/
def fixBraceEnd : List Char → List Char
  | [] => []
  | c :: cs =>
      if c = rbrace && cs.all isJsWS then [rbrace] else c :: fixBraceEnd cs

/-- A literal global replacement `.replace(pat, rep)` (no metacharacters). -/
def mLit (pat rep : List Char) (l : List Char) : Option (List Char × List Char) :=
  if pat ≠ [] && pat.isPrefixOf l then some (rep, l.drop pat.length) else none

/-- An end-anchored literal replacement `.replace(/pat$/g, rep)`. -/
def replaceSuffix (pat rep : List Char) (l : List Char) : List Char :=
  if pat.isSuffixOf l then l.take (l.length - pat.length) ++ rep else l

/-- One or two digits followed by a colon, with backtracking as in
`(\d{1,2}):` — returns the digits and the remainder after the colon. -/
def matchD12Colon : List Char → Option (List Char × List Char)
  | a :: b :: ':' :: rest =>
      if a.isDigit && b.isDigit then some ([a, b], rest)
      else if a.isDigit && b = ':' then some ([a], ':' :: rest)
      else none
  | a :: ':' :: rest => if a.isDigit then some ([a], rest) else none
  | _ => none

/-- `.replace(/": "(\d{1,2}):\s*"(\d{2})","/g, '": "$1:$2"')`. -/
def mTimeCommaQuote : List Char → Option (List Char × List Char)
  | '"' :: ':' :: ' ' :: '"' :: cs =>
      match matchD12Colon cs with
      | some (d1, rest1) =>
          match rest1.dropWhile isJsWS with
          | '"' :: a :: b :: '"' :: ',' :: '"' :: rest2 =>
              if a.isDigit && b.isDigit then
                some (['"', ':', ' ', '"'] ++ d1 ++ [':', a, b, '"'], rest2)
              else none
          | _ => none
      | none => none
  | _ => none

/-- `.replace(/": "(\d{1,2}):\s*"(\d{2})"/g, '": "$1:$2"')`. -/
def mTimeQuote : List Char → Option (List Char × List Char)
  | '"' :: ':' :: ' ' :: '"' :: cs =>
      match matchD12Colon cs with
      | some (d1, rest1) =>
          match rest1.dropWhile isJsWS with
          | '"' :: a :: b :: '"' :: rest2 =>
              if a.isDigit && b.isDigit then
                some (['"', ':', ' ', '"'] ++ d1 ++ [':', a, b, '"'], rest2)
              else none
          | _ => none
      | none => none
  | _ => none

/-- `.replace(/": "(\d+)\s*}"/g, '": $1}')`. -/
def mNumBrace : List Char → Option (List Char × List Char)
  | '"' :: ':' :: ' ' :: '"' :: cs =>
      let ds := cs.takeWhile Char.isDigit
      if ds = [] then none
      else
        match (cs.drop ds.length).dropWhile isJsWS with
        | d :: '"' :: rest =>
            if d = rbrace then some (['"', ':', ' '] ++ ds ++ [rbrace], rest) else none
        | _ => none
  | _ => none

/-- `.replace(/": "(\d+)\s*",/g, '": $1,')`. -/
def mNumQuoteComma : List Char → Option (List Char × List Char)
  | '"' :: ':' :: ' ' :: '"' :: cs =>
      let ds := cs.takeWhile Char.isDigit
      if ds = [] then none
      else
        match (cs.drop ds.length).dropWhile isJsWS with
        | '"' :: ',' :: rest => some (['"', ':', ' '] ++ ds ++ [','], rest)
        | _ => none
  | _ => none

/-- `.replace(/": "(\d+)"/g, '": $1')`. -/
def mNumQuote : List Char → Option (List Char × List Char)
  | '"' :: ':' :: ' ' :: '"' :: cs =>
      let ds := cs.takeWhile Char.isDigit
      if ds = [] then none
      else
        match cs.drop ds.length with
        | '"' :: rest => some (['"', ':', ' '] ++ ds, rest)
        | _ => none
  | _ => none

/-- `.replace(/"visitOrder": "(\d+),"/g, '"visitOrder": $1')`. -/
def mVisitOrder (l : List Char) : Option (List Char × List Char) :=
  let pat := "\"visitOrder\": \"".toList
  if pat.isPrefixOf l then
    let cs := l.drop pat.length
    let ds := cs.takeWhile Char.isDigit
    if ds = [] then none
    else
      match cs.drop ds.length with
      | ',' :: '"' :: rest => some ("\"visitOrder\": ".toList ++ ds, rest)
      | _ => none
  else none

/-- `.replace(/"{2,}/g, '"')`: collapse a run of two or more quotes. -/
def mQuoteRun : List Char → Option (List Char × List Char)
  | '"' :: '"' :: cs => some (['"'], cs.dropWhile (· = '"'))
  | _ => none

/-- `.replace(/",+/g, '",')`: collapse the commas after a quote. -/
def mQuoteCommas : List Char → Option (List Char × List Char)
  | '"' :: ',' :: cs => some (['"', ','], cs.dropWhile (· = ','))
  | _ => none

/-- The Tier-3 text-normalization sequence (lines 451-510): the ordered chain
of whitespace, separator, quoted-number, split-time, boolean/null and
qualitative-cost corrections, exactly in source order. -/
def tier3Clean (l : List Char) : List Char :=
  let s := runReplace mNewlineWS l
  let s := runReplace mWSRun s
  let s := jsTrim s
  let s := runReplace mCommaBeforeClose s
  let s := runReplace mColonWSQuote s
  let s := runReplace mQuoteCommaWS s
  let s := stripTrailingComma s
  let s := fixBraceEnd s
  let s := runReplace (mLit "\"null,\"".toList "null".toList) s
  let s := runReplace (mLit "\": \"null,\"".toList "\": null".toList) s
  let s := runReplace mTimeCommaQuote s
  let s := runReplace mTimeQuote s
  let s := runReplace mNumBrace s
  let s := runReplace mNumQuoteComma s
  let s := runReplace mNumQuote s
  let s := runReplace mVisitOrder s
  let s := runReplace (mLit "\": \"true\"".toList "\": true".toList) s
  let s := runReplace (mLit "\": \"false\"".toList "\": false".toList) s
  let s := runReplace (mLit "\": \"null\"".toList "\": null".toList) s
  let s := runReplace (mLit "\": low,".toList "\": 400,".toList) s
  let s := runReplace (mLit "\": medium,".toList "\": 800,".toList) s
  let s := runReplace (mLit "\": high,".toList "\": 1500,".toList) s
  let s := replaceSuffix "\": low".toList "\": 400".toList s
  let s := replaceSuffix "\": medium".toList "\": 800".toList s
  let s := replaceSuffix "\": high".toList "\": 1500".toList s
  let s := runReplace (mLit "\": low\"".toList "\": 400".toList) s
  let s := runReplace (mLit "\": medium\"".toList "\": 800".toList) s
  let s := runReplace (mLit "\": high\"".toList "\": 1500".toList) s
  let s := runReplace (mLit ": low,".toList ": 400,".toList) s
  let s := runReplace (mLit ": medium,".toList ": 800,".toList) s
  let s := runReplace (mLit ": high,".toList ": 1500,".toList) s
  let s := replaceSuffix ": low".toList ": 400".toList s
  let s := replaceSuffix ": medium".toList ": 800".toList s
  let s := replaceSuffix ": high".toList ": 1500".toList s
  let s := runReplace mQuoteRun s
  let s := runReplace mQuoteCommas s
  s


/-- JSON whitespace (RFC 8259, as accepted by `JSON.parse`). -/
def isJsonWS (c : Char) : Bool :=
  c = ' ' || c = '\t' || c = '\n' || c = '\r'

/-- Parses the body of a JSON string literal after the opening quote,
handling the escape sequences `JSON.parse` accepts (`\u` sequences are
decoded). -/
def parseStringBody : Nat → List Char → Option (List Char × List Char)
  | 0, _ => none
  | _, [] => none
  | fuel + 1, c :: cs =>
      if c = '"' then some ([], cs)
      else if c = '\\' then
        match cs with
        | '"' :: rest => (parseStringBody fuel rest).map (fun p => ('"' :: p.1, p.2))
        | '\\' :: rest => (parseStringBody fuel rest).map (fun p => ('\\' :: p.1, p.2))
        | '/' :: rest => (parseStringBody fuel rest).map (fun p => ('/' :: p.1, p.2))
        | 'b' :: rest => (parseStringBody fuel rest).map (fun p => ('\x08' :: p.1, p.2))
        | 'f' :: rest => (parseStringBody fuel rest).map (fun p => ('\x0c' :: p.1, p.2))
        | 'n' :: rest => (parseStringBody fuel rest).map (fun p => ('\n' :: p.1, p.2))
        | 'r' :: rest => (parseStringBody fuel rest).map (fun p => ('\r' :: p.1, p.2))
        | 't' :: rest => (parseStringBody fuel rest).map (fun p => ('\t' :: p.1, p.2))
        | 'u' :: a :: b :: c1 :: d :: rest =>
            let hex? := fun (x : Char) =>
              if x.isDigit then some (x.toNat - '0'.toNat)
              else if 'a' ≤ x && x ≤ 'f' then some (x.toNat - 'a'.toNat + 10)
              else if 'A' ≤ x && x ≤ 'F' then some (x.toNat - 'A'.toNat + 10)
              else none
            match hex? a, hex? b, hex? c1, hex? d with
            | some ha, some hb, some hc, some hd =>
                (parseStringBody fuel rest).map
                  (fun p => (Char.ofNat (((ha * 16 + hb) * 16 + hc) * 16 + hd) :: p.1, p.2))
            | _, _, _, _ => none
        | _ => none
      else if c.toNat < 32 then none
      else (parseStringBody fuel cs).map (fun p => (c :: p.1, p.2))

/-- Parses a JSON integer (optional minus, no leading-zero violations). -/
def parseJsonInt (l : List Char) : Option (Int × List Char) :=
  let core : List Char → Option (Nat × List Char) := fun l' =>
    match l' with
    | '0' :: rest =>
        match rest with
        | r :: _ => if r.isDigit then none else some ((0 : Nat), rest)
        | [] => some ((0 : Nat), [])
    | _ =>
        let ds := l'.takeWhile Char.isDigit
        if ds = [] then none
        else
          some (ds.foldl (fun (acc : Nat) (c : Char) => acc * 10 + (c.toNat - '0'.toNat)) 0,
            l'.drop ds.length)
  match l with
  | '-' :: rest => (core rest).map (fun p => (-(p.1 : Int), p.2))
  | _ => (core l).map (fun p => ((p.1 : Int), p.2))

mutual

/-- Recursive-descent JSON value parser (fuel-indexed). -/
def parseValue : Nat → List Char → Option (Json × List Char)
  | 0, _ => none
  | fuel + 1, l =>
      match l.dropWhile isJsonWS with
      | [] => none
      | c :: cs =>
          if c = '"' then
            (parseStringBody (fuel + 1) cs).map (fun p => (Json.str (String.mk p.1), p.2))
          else if c = lbrace then
            match (cs.dropWhile isJsonWS) with
            | d :: rest =>
                if d = rbrace then some (Json.obj [], rest)
                else parseMembers fuel (cs.dropWhile isJsonWS) []
            | [] => none
          else if c = '[' then
            match (cs.dropWhile isJsonWS) with
            | ']' :: rest => some (Json.arr [], rest)
            | _ :: _ => parseElements fuel (cs.dropWhile isJsonWS) []
            | [] => none
          else if c = 't' then
            if "rue".toList.isPrefixOf cs then some (Json.bool true, cs.drop 3) else none
          else if c = 'f' then
            if "alse".toList.isPrefixOf cs then some (Json.bool false, cs.drop 4) else none
          else if c = 'n' then
            if "ull".toList.isPrefixOf cs then some (Json.null, cs.drop 3) else none
          else
            (parseJsonInt (c :: cs)).map (fun p => (Json.num p.1, p.2))

/-- Parses the members of a JSON object after the opening brace (positioned at
the first key), accumulating parsed pairs. -/
def parseMembers : Nat → List Char → List (String × Json) → Option (Json × List Char)
  | 0, _, _ => none
  | fuel + 1, l, acc =>
      match l.dropWhile isJsonWS with
      | '"' :: cs =>
          match parseStringBody (fuel + 1) cs with
          | none => none
          | some (key, rest1) =>
              match rest1.dropWhile isJsonWS with
              | ':' :: rest2 =>
                  match parseValue fuel rest2 with
                  | none => none
                  | some (v, rest3) =>
                      match rest3.dropWhile isJsonWS with
                      | ',' :: rest4 => parseMembers fuel rest4 (acc ++ [(String.mk key, v)])
                      | d :: rest4 =>
                          if d = rbrace then
                            some (Json.obj (acc ++ [(String.mk key, v)]), rest4)
                          else none
                      | [] => none
              | _ => none
      | _ => none

/-- Parses the elements of a JSON array after the opening bracket (positioned
at the first element), accumulating parsed values. -/
def parseElements : Nat → List Char → List Json → Option (Json × List Char)
  | 0, _, _ => none
  | fuel + 1, l, acc =>
      match parseValue fuel l with
      | none => none
      | some (v, rest) =>
          match rest.dropWhile isJsonWS with
          | ',' :: rest2 => parseElements fuel rest2 (acc ++ [v])
          | ']' :: rest2 => some (Json.arr (acc ++ [v]), rest2)
          | _ => none

end

/-- `JSON.parse`: a full parse of the string, allowing only trailing
whitespace after the value; `none` embeds the thrown `SyntaxError`. -/
def parseJson (l : List Char) : Option Json :=
  match parseValue (l.length + 1) l with
  | some (j, rest) => if rest.dropWhile isJsonWS = [] then some j else none
  | none => none

/-- The greedy `/\{[\s\S]*\}/` match: the slice from the first `{` to the
last `}` after it, `none` when no such pair exists. -/
def braceMatch (l : List Char) : Option (List Char) :=
  match l.dropWhile (· ≠ lbrace) with
  | [] => none
  | s =>
      let upto := (s.reverse.dropWhile (· ≠ rbrace)).reverse
      match upto with
      | [] => none
      | _ => if upto.length ≥ 2 then some upto else none

/-- Does the list start with `"selectedAttractions"\s*:\s*\[`? -/
def matchSelAttr (l : List Char) : Bool :=
  let pat := "\"selectedAttractions\"".toList
  if pat.isPrefixOf l then
    match (l.drop pat.length).dropWhile isJsWS with
    | ':' :: rest =>
        match rest.dropWhile isJsWS with
        | '[' :: _ => true
        | _ => false
    | _ => false
  else false

/-- First suffix of `l` satisfying `m` (the suffix from the first regex-match
position to the end, as `/pat[\s\S]*/` returns). -/
def findMatchSuffix (m : List Char → Bool) : List Char → Option (List Char)
  | [] => none
  | c :: cs => if m (c :: cs) then some (c :: cs) else findMatchSuffix m cs

/-- Sums all matches of `/"duration"\s*:\s*(\d+)/g` over the list (the
reconstruction's recomputed duration total). -/
def sumDurationMatches : Nat → List Char → Nat
  | 0, _ => 0
  | _, [] => 0
  | fuel + 1, c :: cs =>
      let pat := "\"duration\"".toList
      let attempt : Option (Nat × List Char) :=
        if pat.isPrefixOf (c :: cs) then
          match ((c :: cs).drop pat.length).dropWhile isJsWS with
          | ':' :: rest =>
              let rest2 := rest.dropWhile isJsWS
              let ds := rest2.takeWhile Char.isDigit
              if ds = [] then none
              else
                some (ds.foldl (fun (acc : Nat) (d : Char) => acc * 10 + (d.toNat - '0'.toNat)) 0,
                  rest2.drop ds.length)
          | _ => none
        else none
      match attempt with
      | some (v, rest) => v + sumDurationMatches fuel rest
      | none => sumDurationMatches fuel cs

/-- `JSON.parse`-ready digits of a natural number. -/
def natDigits (n : Nat) : List Char := (toString n).toList

/-- The smart JSON reconstruction of lines 406-441: when the raw response has
no complete brace pair or lacks the aggregate fields, refit the
`selectedAttractions` slice (closing the list at the last complete item when
needed) and append recomputed `totalDuration`/`estimatedCost` fields;
otherwise keep the greedy brace match. -/
def extractJsonCandidate (resp : List Char) : Option (List Char) :=
  let jm := braceMatch resp
  if jm.isNone || !jsIncludesL "totalDuration".toList resp ||
      !jsIncludesL "estimatedCost".toList resp then
    match findMatchSuffix matchSelAttr resp with
    | some attrStr0 =>
        let attrStr :=
          if !attrStr0.contains ']' then
            match attrStr0.reverse.dropWhile (· ≠ rbrace) with
            | [] => attrStr0
            | rev => rev.reverse ++ [']']
          else attrStr0
        let totalDuration :=
          match sumDurationMatches attrStr.length attrStr with
          | 0 => 270
          | n => n
        let estimatedCost := if totalDuration > 200 then 800 else 600
        some ([lbrace] ++ attrStr ++ ",\"totalDuration\":".toList ++ natDigits totalDuration ++
          ",\"estimatedCost\":".toList ++ natDigits estimatedCost ++ [rbrace])
    | none => jm
  else jm

/-- Does the lookahead `\s*{\s*"attractionId"` match at this position? -/
def matchSplitPoint (l : List Char) : Bool :=
  match l.dropWhile isJsWS with
  | c :: rest =>
      c = lbrace && "\"attractionId\"".toList.isPrefixOf (rest.dropWhile isJsWS)
  | [] => false

/-- Worker for `splitBlocks`: a zero-width split happens at every position
(after the first) where the lookahead matches. -/
def splitBlocksGo : List Char → List Char → List (List Char)
  | acc, [] => [acc.reverse]
  | acc, c :: cs =>
      if matchSplitPoint (c :: cs) then acc.reverse :: splitBlocksGo [c] cs
      else splitBlocksGo (c :: acc) cs

/-- `aiResponse.split(/(?=\s*{\s*"attractionId")/)`. -/
def splitBlocks : List Char → List (List Char)
  | [] => [[]]
  | c :: cs => splitBlocksGo [c] cs

/-- First match of `m` over the suffixes of the list (the regex engine's
leftmost-match search). -/
def firstMatch? {α : Type} (m : List Char → Option α) : List Char → Option α
  | [] => none
  | c :: cs =>
      match m (c :: cs) with
      | some v => some v
      | none => firstMatch? m cs

/-- Anchored `"<key>":\s*"([^"]+)"`: the captured string. -/
def mFieldStr (key : List Char) (l : List Char) : Option String :=
  if key.isPrefixOf l then
    match l.drop key.length with
    | ':' :: rest =>
        match rest.dropWhile isJsWS with
        | '"' :: rest2 =>
            let body := rest2.takeWhile (· ≠ '"')
            if body = [] then none
            else
              match rest2.drop body.length with
              | '"' :: _ => some (String.mk body)
              | _ => none
        | _ => none
    | _ => none
  else none

/-- Anchored `"<key>":\s*(\d+)`: the captured number. -/
def mFieldNum (key : List Char) (l : List Char) : Option Int :=
  if key.isPrefixOf l then
    match l.drop key.length with
    | ':' :: rest =>
        let rest2 := rest.dropWhile isJsWS
        let ds := rest2.takeWhile Char.isDigit
        if ds = [] then none
        else some ((ds.foldl (fun (acc : Nat) (d : Char) => acc * 10 + (d.toNat - '0'.toNat)) 0 : Nat))
    | _ => none
  else none

/-- An attraction extracted from the raw text by Tier 4, before scheduling. -/
structure ExtractItem where
  attraction : Attraction
  suggestedTime : String
  duration : Int
  reason : String
  deriving DecidableEq, Repr

/-- A visit of the text-extraction plan (`plannedStartTime` is sent as the
raw string; `startMin` is its parse, `none` embedding the NaN `Date`). -/
structure ExtractVisit where
  attraction : Attraction
  visitOrder : Int
  priority : Int
  plannedStartTime : String
  startMin : Option Int
  durationMin : Int
  estimatedCost : Option Int
  deriving DecidableEq, Repr

/-- The trip plan produced by `extractTripPlanFromText`. -/
structure ExtractPlan where
  visits : List ExtractVisit
  totalEstimatedCost : Option Int
  deriving DecidableEq, Repr

/-- Block-level extraction of `extractTripPlanFromText` (lines 626-651):
regex field extraction per block, keeping only ids found in the catalog. -/
def extractItems (resp : List Char) (catalog : List Attraction) : List ExtractItem :=
  (splitBlocks resp).filterMap (fun block =>
    if !jsIncludesL "attractionId".toList block then none
    else
      match firstMatch? (mFieldStr "\"attractionId\"".toList) block,
          firstMatch? (mFieldStr "\"name\"".toList) block with
      | some aid, some _ =>
          match catalog.find? (fun (a : Attraction) => a.id = aid) with
          | some foundAttraction =>
              some { attraction := foundAttraction
                     suggestedTime :=
                       (firstMatch? (mFieldStr "\"suggestedTime\"".toList) block).getD "09:00"
                     duration :=
                       (firstMatch? (mFieldNum "\"duration\"".toList) block).getD
                         foundAttraction.estimatedVisitTime
                     reason :=
                       (firstMatch? (mFieldStr "\"reason\"".toList) block).getD "Selected by AI" }
          | none => none
      | _, _ => none)

/-- The name-mention fallback items (lines 666-671): staggered times
`9+2*index`, catalog durations. -/
def buildMentionedItems : List Attraction → Nat → List ExtractItem
  | [], _ => []
  | a :: rest, idx =>
      { attraction := a
        suggestedTime := toString (9 + idx * 2) ++ ":00"
        duration := a.estimatedVisitTime
        reason := "Mentioned in AI response" } :: buildMentionedItems rest (idx + 1)

/-- The per-item schedule records of the text-extraction plan (lines
675-699). -/
def buildExtractVisits : List ExtractItem → Nat → List ExtractVisit
  | [], _ => []
  | it :: rest, idx =>
      { attraction := it.attraction
        visitOrder := (idx : Int) + 1
        priority := (idx : Int) + 1
        plannedStartTime := it.suggestedTime
        startMin := timeToMin it.suggestedTime
        durationMin := it.duration
        estimatedCost := getPriceEstimate it.attraction.priceRange } ::
        buildExtractVisits rest (idx + 1)

/-- The extracted item list: the structured blocks when any, else the plain
name-mention fallback capped at 4 (lines 655-672). -/
def extractAttractionsList (resp : List Char) (catalog : List Attraction) :
    List ExtractItem :=
  match extractItems resp catalog with
  | [] =>
      buildMentionedItems
        ((catalog.filter
          (fun (a : Attraction) => jsIncludesL (lowerL a.name.toList) (lowerL resp))).take 4) 0
  | items => items

/-- The final trip-plan packaging of `extractTripPlanFromText`: `none` embeds
the `null` return when no item was found. -/
def packExtractPlan (items : List ExtractItem) : Option ExtractPlan :=
  match items with
  | [] => none
  | _ =>
      some { visits := buildExtractVisits items 0
             totalEstimatedCost := optSum ((buildExtractVisits items 0).map (·.estimatedCost)) }

/-- `extractTripPlanFromText` (lines 618-719): structured block extraction,
then the plain name-mention fallback capped at 4, then the per-item schedule
shape. -/
def extractTripPlanFromText (resp : List Char) (catalog : List Attraction) :
    Option ExtractPlan :=
  packExtractPlan (extractAttractionsList resp catalog)

/-- JS property read `obj[k]` on a parsed JSON object (`JSON.parse` keeps the
last of duplicate keys). -/
def jLookup (j : Json) (k : String) : Option Json :=
  match j with
  | Json.obj fs => (fs.reverse.find? (fun p => p.1 = k)).map (·.2)
  | _ => none

/-- String payload of a JSON value, `none` otherwise. -/
def jStr? : Json → Option String
  | Json.str s => some s
  | _ => none

/-- Integer payload of a JSON value, `none` otherwise. -/
def jInt? : Json → Option Int
  | Json.num n => some n
  | _ => none

/-- The field reads `processDirectTripPlan` performs on one parsed selected
item.  `visitOrder` and `suggestedTime` are kept as the raw JSON values (the
code never coerces them; a non-string truthy `suggestedTime` later crashes
`.split` and the whole call is rerouted, which `firstStartMin` records).
`duration` only feeds arithmetic, where a JSON number is the sole case the
embedding's integer model covers, so it is projected to `Option Int`. -/
def decodeSelected (j : Json) : SelectedAttraction :=
  { attractionId := (jLookup j "attractionId").bind jStr?
    name := (jLookup j "name").bind jStr?
    reason := (jLookup j "reason").bind jStr?
    visitOrder := jLookup j "visitOrder"
    suggestedTime := jLookup j "suggestedTime"
    duration := (jLookup j "duration").bind jInt? }

/-- The field reads `processDirectTripPlan` performs on the parsed plan. -/
def decodeTripPlan (j : Json) : AITripPlan :=
  { selectedAttractions :=
      match jLookup j "selectedAttractions" with
      | some (Json.arr xs) => xs.map decodeSelected
      | _ => []
    totalDuration := (jLookup j "totalDuration").bind jInt?
    estimatedCost := (jLookup j "estimatedCost").bind jInt? }

/-- Which strategy produced the returned trip plan. -/
inductive Outcome where
  | direct : DirectPlan → Outcome
  | textExtract : ExtractPlan → Outcome
  | fallback : FallbackPlan → Outcome
  deriving Repr

/-- Result of one `generateDirectTripPlan` call: the returned plan and how
many generator requests were issued. -/
structure GenResult where
  outcome : Outcome
  generatorCalls : Nat
  deriving Repr

/-- The in-flight request fingerprint
`` `${userText.substring(0, 50)}-${Date.now()}` ``: the truncated request
text together with the arrival timestamp. -/
def requestKey (userText : String) (now : Nat) : String × Nat :=
  (String.mk (userText.toList.take 50), now)

/-- The repair tiers of `generateDirectTripPlan` applied to a raw generator
response (lines 405-532): candidate extraction/reconstruction, the Tier-3
cleaning, deserialization, then the Tier-4 text extraction. -/
def repairPipeline (resp : List Char) (catalog : List Attraction) :
    Option (Json ⊕ ExtractPlan) :=
  match extractJsonCandidate resp with
  | none => none
  | some jsonStr =>
      match parseJson (tier3Clean jsonStr) with
      | some j => some (Sum.inl j)
      | none =>
          match extractTripPlanFromText resp catalog with
          | some p => some (Sum.inr p)
          | none => none

/-- `generateDirectTripPlan` (lines 358-541).  The generator interaction is
embedded as `generatorResponse`: `none` when the endpoint is unreachable or
times out, `some raw` for a reply.  Returns the produced plan, the number of
generator calls issued, and the new in-flight marker. -/
def generateDirectTripPlan (st : Option (String × Nat)) (userText : String)
    (catalog : List Attraction) (realTime : RealTimeData) (now : Nat)
    (isAvailable : Bool) (traffic : Option TrafficMatrix)
    (generatorResponse : Option String) : GenResult × Option (String × Nat) :=
  let key := requestKey userText now
  if st = some key then
    ({ outcome := Outcome.fallback (getDirectFallbackTripPlan userText catalog realTime)
       generatorCalls := 0 }, st)
  else
    let st' := some key
    if !isAvailable then
      ({ outcome := Outcome.fallback
           (getDirectFallbackTripPlan userText catalog (realTime.withTraffic traffic))
         generatorCalls := 0 }, st')
    else
      match generatorResponse with
      | none =>
          ({ outcome := Outcome.fallback
               (getDirectFallbackTripPlan userText catalog (realTime.withTraffic traffic))
             generatorCalls := 1 }, st')
      | some resp =>
          match repairPipeline resp.toList catalog with
          | some (Sum.inl j) =>
              match processDirectTripPlan (decodeTripPlan j) catalog traffic with
              | some plan => ({ outcome := Outcome.direct plan, generatorCalls := 1 }, st')
              | none =>
                  ({ outcome := Outcome.fallback
                       (getDirectFallbackTripPlan userText catalog (realTime.withTraffic traffic))
                     generatorCalls := 1 }, st')
          | some (Sum.inr p) => ({ outcome := Outcome.textExtract p, generatorCalls := 1 }, st')
          | none =>
              ({ outcome := Outcome.fallback
                   (getDirectFallbackTripPlan userText catalog (realTime.withTraffic traffic))
                 generatorCalls := 1 }, st')

/-! Concrete fixtures used by the scenario claims, and the decidable checks
that phrase the spec's per-itinerary properties. -/

/-- A plain cultural catalog entry. -/
def attA : Attraction := ⟨"a", "alpha hall", none, "cultural", "low", 60⟩

/-- A second plain cultural catalog entry. -/
def attB : Attraction := ⟨"b", "beta hall", none, "cultural", "low", 60⟩

/-- A third catalog entry (nature). -/
def attC : Attraction := ⟨"c", "gamma hall", none, "nature", "free", 45⟩

/-- A request context with no weather/alert/traffic data. -/
def rtEmpty : RealTimeData := ⟨none, none, none⟩

/-- A clear-weather context (sunny, mild, good air). -/
def rtClear : RealTimeData :=
  ⟨some ⟨some "sunny", none, none, some 25, some 5, some 80⟩, some [], none⟩

/-- A generator plan carrying deliberately wrong aggregate totals. -/
def plan1 : AITripPlan :=
  ⟨[⟨some "a", some "alpha hall", none, none, some (Json.str "09:00"), some 60⟩],
    some 999, some 777⟩

/-- The itinerary the pipeline produces from `plan1` over `[attA]`. -/
def plan1out : DirectPlan :=
  ⟨[⟨attA, Json.num 1, 1, some 540, 60, some 600, some 25, Json.num 1⟩], 999, some 777⟩

/-- A traffic matrix with a single (beta hall → alpha hall) route of 200
minutes. -/
def tmBA : TrafficMatrix := ⟨[⟨"beta hall", "alpha hall", 200⟩]⟩

/-- A generator plan whose second selected id is not in the catalog. -/
def plan2 : AITripPlan :=
  ⟨[⟨some "b", some "beta hall", none, none, some (Json.str "09:00"), some 60⟩,
    ⟨some "zz", some "nowhere", none, none, none, some 30⟩], none, none⟩

/-- The itinerary the pipeline produces from `plan2` over `[attA, attB]` with
`tmBA`. -/
def plan2out : DirectPlan :=
  ⟨[⟨attB, Json.num 1, 1, some 540, 60, some 600, some 25, Json.num 1⟩,
    ⟨attA, Json.num 2, 2, some 690, 30, some 720, some 25, Json.num 2⟩], 120, some 50⟩

/-- The cultural site of the spec's combined-intent scenario. -/
def c6cult : Attraction := ⟨"c1", "Man Mo Hall", none, "cultural", "low", 60⟩

/-- The food/market site of the scenario. -/
def c6food : Attraction := ⟨"f1", "Graham Street Market", none, "food", "low", 90⟩

/-- The nature site of the scenario. -/
def c6nat : Attraction := ⟨"n1", "Dragon Back Trail", none, "nature", "free", 180⟩

/-- The scenario catalog: one cultural, one food, one nature site. -/
def c6cat : List Attraction := [c6cult, c6food, c6nat]

/-- The scenario request text. -/
def c6text : String := "cultural sites with lunch, budget 500"

/-- The spec's malformed raw generator text scenario (a split quoted time and
an unterminated quoted duration inside the selection list). -/
def c8raw : List Char :=
  "\x7b\"selectedAttractions\":[\x7b\"attractionId\":\"a1\",\"name\":\"X\",\"visitOrder\":1,\"suggestedTime\":\"09: \"00\"\",\"duration\":\"120\x7d]".toList

/-- The catalog entry named by the malformed scenario text. -/
def c8attr : Attraction := ⟨"a1", "X", none, "cultural", "low", 60⟩

/-- The JSON candidate the repair pipeline reconstructs from `c8raw`. -/
def c8candidate : List Char := (extractJsonCandidate c8raw).getD []

/-- A one-item generator plan over the `c8attr` catalog (no aggregates). -/
def plan3 : AITripPlan :=
  ⟨[⟨some "a1", some "X", none, none, some (Json.str "09:00"), some 60⟩], none, none⟩

/-- The itinerary the pipeline produces from `plan3` over `[c8attr]`. -/
def plan3out : DirectPlan :=
  ⟨[⟨c8attr, Json.num 1, 1, some 540, 60, some 600, some 25, Json.num 1⟩], 60, some 25⟩

/-- A short string ending in a comma run before a closing brace. -/
def commaRunInput : List Char := "\",,\x7d".toList

/-- Decidable form of the spec's totals property: the itinerary totals equal
the sums of the per-visit durations and cost estimates. -/
def totalsAreSumsB (p : DirectPlan) : Bool :=
  (p.totalTime == (p.visits.map (·.durationMin)).sum) &&
  (p.totalCost == optSum (p.visits.map (·.estimatedCost)))

/-- Decidable form of the spec's consecutive-gap property: each visit starts
no earlier than the previous end plus the looked-up-or-default travel time
between the two stops. -/
def specGapOkB (traffic : Option TrafficMatrix) : List PlannedVisit → Bool
  | v0 :: v1 :: rest =>
      (match v0.endMin, v1.startMin with
       | some e, some s1 =>
           decide (e + specTravelTime traffic v0.attraction.name v1.attraction.name ≤ s1)
       | _, _ => false) && specGapOkB traffic (v1 :: rest)
  | _ => true

/-- Decidable form of "visit ordinals are contiguous starting at 0". -/
def ordinalsFromZeroB (vs : List PlannedVisit) : Bool :=
  (List.range vs.length).all
    (fun i => match vs.get? i with
      | some v => jsonIsNum v.priority (i : Int)
      | none => false)

/-- Decidable form of "start times strictly increase along the itinerary". -/
def startsStrictIncrB : List PlannedVisit → Bool
  | v0 :: v1 :: rest =>
      (match v0.startMin, v1.startMin with
       | some a, some b => decide (a < b)
       | _, _ => false) && startsStrictIncrB (v1 :: rest)
  | _ => true

theorem lookupAttraction_mem {catalog : List Attraction} {aid : Option String}
    {a : Attraction} (h : lookupAttraction catalog aid = some a) : a ∈ catalog := by
  unfold lookupAttraction at h
  cases hF : catalog.find? (fun (x : Attraction) => aid == some x.id) with
  | some b =>
      rw [hF] at h
      cases h
      exact List.mem_of_find?_eq_some hF
  | none =>
      rw [hF] at h
      cases catalog with
      | nil => simp [List.head?] at h
      | cons x xs =>
          simp [List.head?] at h
          subst h
          exact List.mem_cons_self x xs

theorem scheduleCore_cons {catalog : List Attraction} {traffic : Option TrafficMatrix}
    {sel : SelectedAttraction} {rest : List SelectedAttraction} {idx : Nat} {ct : Option Int}
    {vs : List PlannedVisit}
    (h : scheduleCore catalog traffic (sel :: rest) idx ct = some vs) :
    ∃ attraction vsr,
      lookupAttraction catalog sel.attractionId = some attraction ∧
      vs = mkVisit sel attraction idx ct :: vsr ∧
      scheduleCore catalog traffic rest (idx + 1)
        (ct.map (fun c => c + stepAdvance catalog traffic sel attraction rest)) =
          some vsr := by
  simp only [scheduleCore] at h
  split at h
  · simp at h
  · rename_i attraction hL
    rcases hR : scheduleCore catalog traffic rest (idx + 1)
        (ct.map (fun c => c + stepAdvance catalog traffic sel attraction rest)) with _ | vsr
    · rw [hR] at h; simp at h
    · rw [hR] at h
      simp only [Option.map_some', Option.some.injEq] at h
      exact ⟨attraction, vsr, hL, h.symm, hR⟩

theorem scheduleCore_nil_inv {catalog : List Attraction} {traffic : Option TrafficMatrix}
    {idx : Nat} {ct : Option Int} {vs : List PlannedVisit}
    (h : scheduleCore catalog traffic [] idx ct = some vs) : vs = [] := by
  simp only [scheduleCore, Option.some.injEq] at h
  exact h.symm

theorem scheduleCore_length {catalog : List Attraction} {traffic : Option TrafficMatrix} :
    ∀ {sels : List SelectedAttraction} {idx : Nat} {ct : Option Int} {vs : List PlannedVisit},
      scheduleCore catalog traffic sels idx ct = some vs → vs.length = sels.length := by
  intro sels
  induction sels with
  | nil => intro idx ct vs h; rw [scheduleCore_nil_inv h]; rfl
  | cons sel rest ih =>
      intro idx ct vs h
      obtain ⟨attraction, vsr, _, rfl, hR⟩ := scheduleCore_cons h
      simp [ih hR]

theorem scheduleCore_attraction_mem {catalog : List Attraction}
    {traffic : Option TrafficMatrix} :
    ∀ {sels : List SelectedAttraction} {idx : Nat} {ct : Option Int} {vs : List PlannedVisit},
      scheduleCore catalog traffic sels idx ct = some vs →
      ∀ v ∈ vs, v.attraction ∈ catalog := by
  intro sels
  induction sels with
  | nil =>
      intro idx ct vs h v hv
      rw [scheduleCore_nil_inv h] at hv
      simp at hv
  | cons sel rest ih =>
      intro idx ct vs h v hv
      obtain ⟨attraction, vsr, hL, rfl, hR⟩ := scheduleCore_cons h
      rcases List.mem_cons.mp hv with rfl | hv'
      · exact lookupAttraction_mem hL
      · exact ih hR v hv'

theorem scheduleCore_cost {catalog : List Attraction} {traffic : Option TrafficMatrix} :
    ∀ {sels : List SelectedAttraction} {idx : Nat} {ct : Option Int} {vs : List PlannedVisit},
      scheduleCore catalog traffic sels idx ct = some vs →
      ∀ v ∈ vs, v.estimatedCost = getPriceEstimate v.attraction.priceRange := by
  intro sels
  induction sels with
  | nil =>
      intro idx ct vs h v hv
      rw [scheduleCore_nil_inv h] at hv
      simp at hv
  | cons sel rest ih =>
      intro idx ct vs h v hv
      obtain ⟨attraction, vsr, hL, rfl, hR⟩ := scheduleCore_cons h
      rcases List.mem_cons.mp hv with rfl | hv'
      · rfl
      · exact ih hR v hv'

theorem scheduleCore_end {catalog : List Attraction} {traffic : Option TrafficMatrix} :
    ∀ {sels : List SelectedAttraction} {idx : Nat} {ct : Option Int} {vs : List PlannedVisit},
      scheduleCore catalog traffic sels idx ct = some vs →
      ∀ v ∈ vs, v.endMin = v.startMin.map (fun s => s + v.durationMin) := by
  intro sels
  induction sels with
  | nil =>
      intro idx ct vs h v hv
      rw [scheduleCore_nil_inv h] at hv
      simp at hv
  | cons sel rest ih =>
      intro idx ct vs h v hv
      obtain ⟨attraction, vsr, hL, rfl, hR⟩ := scheduleCore_cons h
      rcases List.mem_cons.mp hv with rfl | hv'
      · rfl
      · exact ih hR v hv'

theorem stepTravel_pos (catalog : List Attraction) (traffic : Option TrafficMatrix)
    (current : Attraction) (nextId : Option String) :
    0 < stepTravel catalog traffic current nextId := by
  unfold stepTravel
  split
  · split
    · assumption
    · norm_num
  · norm_num

theorem specTravelTime_pos (traffic : Option TrafficMatrix) (fromName toName : String) :
    0 < specTravelTime traffic fromName toName := by
  unfold specTravelTime
  split
  · assumption
  · norm_num

theorem jsOrI_est_nonneg {attraction : Attraction}
    (hc : 0 ≤ attraction.estimatedVisitTime) :
    0 ≤ jsOrI attraction.estimatedVisitTime 120 := by
  unfold jsOrI
  split
  · norm_num
  · exact hc

theorem selDuration_nonneg {sel : SelectedAttraction} {attraction : Attraction}
    (hd : ∀ d, sel.duration = some d → 0 ≤ d)
    (hc : 0 ≤ attraction.estimatedVisitTime) :
    0 ≤ selDuration sel attraction := by
  cases hsd : sel.duration with
  | none => simpa [selDuration, jsOrOpt, hsd] using jsOrI_est_nonneg hc
  | some d =>
      by_cases hd0 : d = 0
      · simpa [selDuration, jsOrOpt, hsd, hd0] using jsOrI_est_nonneg hc
      · simpa [selDuration, jsOrOpt, hsd, hd0] using hd d hsd

theorem scheduleCore_aiPriority {catalog : List Attraction} {traffic : Option TrafficMatrix} :
    ∀ {sels : List SelectedAttraction} {idx : Nat} {ct : Option Int} {vs : List PlannedVisit},
      scheduleCore catalog traffic sels idx ct = some vs →
      ∀ k (hk : k < vs.length), (vs.get ⟨k, hk⟩).aiPriority = (idx : Int) + k + 1 := by
  intro sels
  induction sels with
  | nil =>
      intro idx ct vs h k hk
      rw [scheduleCore_nil_inv h] at hk
      exact absurd hk (by simp)
  | cons sel rest ih =>
      intro idx ct vs h k hk
      obtain ⟨attraction, vsr, hL, rfl, hR⟩ := scheduleCore_cons h
      cases k with
      | zero => simp [mkVisit]
      | succ k' =>
          have hk' : k' < vsr.length := by
            simpa using Nat.lt_of_succ_lt_succ hk
          have := ih hR k' hk'
          simp only [List.get_cons_succ]
          rw [this]
          push_cast
          ring

theorem scheduleCore_consec {catalog : List Attraction} {traffic : Option TrafficMatrix} :
    ∀ {sels : List SelectedAttraction} {idx : Nat} {ct : Option Int} {vs : List PlannedVisit},
      scheduleCore catalog traffic sels idx ct = some vs →
      ∀ k (hv1 : k + 1 < vs.length) (hv0 : k < vs.length) (hs1 : k + 1 < sels.length),
        (vs.get ⟨k + 1, hv1⟩).startMin =
          (vs.get ⟨k, hv0⟩).endMin.map
            (fun e => e + stepTravel catalog traffic (vs.get ⟨k, hv0⟩).attraction
              (sels.get ⟨k + 1, hs1⟩).attractionId) := by
  intro sels
  induction sels with
  | nil =>
      intro idx ct vs h k hv1 hv0 hs1
      exact absurd hs1 (by simp)
  | cons sel rest ih =>
      intro idx ct vs h k hv1 hv0 hs1
      obtain ⟨attraction, vsr, hL, rfl, hR⟩ := scheduleCore_cons h
      cases k with
      | zero =>
          cases rest with
          | nil => exact absurd hs1 (by simp)
          | cons next rest' =>
              have hvsr : vsr ≠ [] := by
                have h0 : 0 < vsr.length := by simpa using Nat.lt_of_succ_lt_succ hv1
                exact List.length_pos.mp h0
              obtain ⟨v1, vsr', rfl⟩ := List.exists_cons_of_ne_nil hvsr
              obtain ⟨attraction2, vsr2, hL2, hEq, hR2⟩ := scheduleCore_cons hR
              have hv1start : v1.startMin =
                  ct.map (fun c =>
                    c + stepAdvance catalog traffic sel attraction (next :: rest')) := by
                rw [List.cons.injEq] at hEq
                rw [hEq.1]
                rfl
              simp only [List.get]
              rw [hv1start]
              dsimp only [mkVisit, stepAdvance]
              cases ct with
              | none => rfl
              | some c =>
                  simp only [Option.map_some', Option.some.injEq]
                  ring
      | succ k' =>
          have hv1' : k' + 1 < vsr.length := by simpa using Nat.lt_of_succ_lt_succ hv1
          have hv0' : k' < vsr.length := by simpa using Nat.lt_of_succ_lt_succ hv0
          have hs1' : k' + 1 < rest.length := by simpa using Nat.lt_of_succ_lt_succ hs1
          have := ih hR k' hv1' hv0' hs1'
          simpa using this

theorem scheduleCore_dur_nonneg {catalog : List Attraction} {traffic : Option TrafficMatrix}
    (hc : ∀ a ∈ catalog, 0 ≤ a.estimatedVisitTime) :
    ∀ {sels : List SelectedAttraction} {idx : Nat} {ct : Option Int} {vs : List PlannedVisit},
      scheduleCore catalog traffic sels idx ct = some vs →
      (∀ s ∈ sels, ∀ d, s.duration = some d → 0 ≤ d) →
      ∀ v ∈ vs, 0 ≤ v.durationMin := by
  intro sels
  induction sels with
  | nil =>
      intro idx ct vs h _ v hv
      rw [scheduleCore_nil_inv h] at hv
      simp at hv
  | cons sel rest ih =>
      intro idx ct vs h hd v hv
      obtain ⟨attraction, vsr, hL, rfl, hR⟩ := scheduleCore_cons h
      rcases List.mem_cons.mp hv with rfl | hv'
      · exact selDuration_nonneg (hd sel (List.mem_cons_self sel rest))
          (hc attraction (lookupAttraction_mem hL))
      · exact ih hR (fun s hs => hd s (List.mem_cons_of_mem sel hs)) v hv'

theorem jsLtOpt_some {a b : Int} (h : a < b) : jsLtOpt (some a) (some b) := h

theorem scheduleCore_start_some {catalog : List Attraction} {traffic : Option TrafficMatrix} :
    ∀ {sels : List SelectedAttraction} {idx : Nat} {c0 : Int} {vs : List PlannedVisit},
      scheduleCore catalog traffic sels idx (some c0) = some vs →
      ∀ v ∈ vs, ∃ s, v.startMin = some s := by
  intro sels
  induction sels with
  | nil =>
      intro idx c0 vs h v hv
      rw [scheduleCore_nil_inv h] at hv
      simp at hv
  | cons sel rest ih =>
      intro idx c0 vs h v hv
      obtain ⟨attraction, vsr, hL, rfl, hR⟩ := scheduleCore_cons h
      rcases List.mem_cons.mp hv with rfl | hv'
      · exact ⟨c0, rfl⟩
      · simp only [Option.map_some'] at hR
        exact ih hR v hv'

theorem scheduleCore_start_lt {catalog : List Attraction} {traffic : Option TrafficMatrix}
    {sels : List SelectedAttraction} {idx : Nat} {c0 : Int} {vs : List PlannedVisit}
    (h : scheduleCore catalog traffic sels idx (some c0) = some vs)
    (hc : ∀ a ∈ catalog, 0 ≤ a.estimatedVisitTime)
    (hd : ∀ s ∈ sels, ∀ d, s.duration = some d → 0 ≤ d) :
    ∀ k (hv1 : k + 1 < vs.length) (hv0 : k < vs.length),
      jsLtOpt (vs.get ⟨k, hv0⟩).startMin (vs.get ⟨k + 1, hv1⟩).startMin := by
  intro k hv1 hv0
  have hlen := scheduleCore_length h
  have hs1 : k + 1 < sels.length := hlen ▸ hv1
  have hstep := scheduleCore_consec h k hv1 hv0 hs1
  have hend := scheduleCore_end h (vs.get ⟨k, hv0⟩) (vs.get_mem k hv0)
  have hdur := scheduleCore_dur_nonneg hc h hd (vs.get ⟨k, hv0⟩) (vs.get_mem k hv0)
  have htravel := stepTravel_pos catalog traffic (vs.get ⟨k, hv0⟩).attraction
    (sels.get ⟨k + 1, hs1⟩).attractionId
  obtain ⟨s, hs⟩ := scheduleCore_start_some h (vs.get ⟨k, hv0⟩) (vs.get_mem k hv0)
  rw [hs] at hend
  rw [hstep, hend, hs]
  simp only [Option.map_some']
  exact jsLtOpt_some (by linarith)

theorem fallbackSchedule_length (traffic : Option TrafficMatrix) :
    ∀ (l : List Attraction) (idx : Nat) (ct : Int),
      (fallbackSchedule traffic l idx ct).length = l.length := by
  intro l
  induction l with
  | nil => intro idx ct; rfl
  | cons a rest ih => intro idx ct; simp [fallbackSchedule, ih]

theorem fallbackSchedule_attraction (traffic : Option TrafficMatrix) :
    ∀ (l : List Attraction) (idx : Nat) (ct : Int) k
      (hk : k < (fallbackSchedule traffic l idx ct).length) (hk' : k < l.length),
      ((fallbackSchedule traffic l idx ct).get ⟨k, hk⟩).attraction = l.get ⟨k, hk'⟩ := by
  intro l
  induction l with
  | nil => intro idx ct k hk hk'; exact absurd hk' (by simp)
  | cons a rest ih =>
      intro idx ct k hk hk'
      cases k with
      | zero => rfl
      | succ k' =>
          have hk2 : k' < (fallbackSchedule traffic rest (idx + 1)
              (ct + fallbackAdvance traffic a rest)).length := by
            simpa [fallbackSchedule] using hk
          have hk2' : k' < rest.length := by simpa using hk'
          simpa [fallbackSchedule, List.get] using ih (idx + 1)
            (ct + fallbackAdvance traffic a rest) k' hk2 hk2'

theorem fallbackSchedule_mem_src (traffic : Option TrafficMatrix) :
    ∀ (l : List Attraction) (idx : Nat) (ct : Int),
      ∀ v ∈ fallbackSchedule traffic l idx ct, v.attraction ∈ l := by
  intro l
  induction l with
  | nil => intro idx ct v hv; simp [fallbackSchedule] at hv
  | cons a rest ih =>
      intro idx ct v hv
      simp only [fallbackSchedule, List.mem_cons] at hv
      rcases hv with rfl | hv'
      · exact List.mem_cons_self a rest
      · exact List.mem_cons_of_mem a (ih (idx + 1) (ct + fallbackAdvance traffic a rest) v hv')

theorem fallbackSchedule_priority (traffic : Option TrafficMatrix) :
    ∀ (l : List Attraction) (idx : Nat) (ct : Int) k
      (hk : k < (fallbackSchedule traffic l idx ct).length),
      ((fallbackSchedule traffic l idx ct).get ⟨k, hk⟩).priority =
        Json.num ((idx : Int) + k + 1) := by
  intro l
  induction l with
  | nil => intro idx ct k hk; simp [fallbackSchedule] at hk
  | cons a rest ih =>
      intro idx ct k hk
      cases k with
      | zero => simp [fallbackSchedule, List.get, mkFallbackVisit]
      | succ k' =>
          have hk2 : k' < (fallbackSchedule traffic rest (idx + 1)
              (ct + fallbackAdvance traffic a rest)).length := by
            simpa [fallbackSchedule] using hk
          have := ih (idx + 1) (ct + fallbackAdvance traffic a rest) k' hk2
          simp only [fallbackSchedule, List.get] at this ⊢
          rw [this]
          congr 1
          push_cast
          ring

theorem fallbackSchedule_end (traffic : Option TrafficMatrix) :
    ∀ (l : List Attraction) (idx : Nat) (ct : Int),
      ∀ v ∈ fallbackSchedule traffic l idx ct,
        v.endMin = v.startMin.map (fun s => s + v.durationMin) := by
  intro l
  induction l with
  | nil => intro idx ct v hv; simp [fallbackSchedule] at hv
  | cons a rest ih =>
      intro idx ct v hv
      simp only [fallbackSchedule, List.mem_cons] at hv
      rcases hv with rfl | hv'
      · rfl
      · exact ih (idx + 1) (ct + fallbackAdvance traffic a rest) v hv'

theorem fallbackSchedule_cost (traffic : Option TrafficMatrix) :
    ∀ (l : List Attraction) (idx : Nat) (ct : Int),
      ∀ v ∈ fallbackSchedule traffic l idx ct,
        v.estimatedCost = getPriceEstimate v.attraction.priceRange := by
  intro l
  induction l with
  | nil => intro idx ct v hv; simp [fallbackSchedule] at hv
  | cons a rest ih =>
      intro idx ct v hv
      simp only [fallbackSchedule, List.mem_cons] at hv
      rcases hv with rfl | hv'
      · rfl
      · exact ih (idx + 1) (ct + fallbackAdvance traffic a rest) v hv'

theorem fallbackSchedule_consec (traffic : Option TrafficMatrix) :
    ∀ (l : List Attraction) (idx : Nat) (ct : Int) k
      (hv1 : k + 1 < (fallbackSchedule traffic l idx ct).length)
      (hv0 : k < (fallbackSchedule traffic l idx ct).length),
      ((fallbackSchedule traffic l idx ct).get ⟨k + 1, hv1⟩).startMin =
        ((fallbackSchedule traffic l idx ct).get ⟨k, hv0⟩).endMin.map
          (fun e => e + specTravelTime traffic
            ((fallbackSchedule traffic l idx ct).get ⟨k, hv0⟩).attraction.name
            ((fallbackSchedule traffic l idx ct).get ⟨k + 1, hv1⟩).attraction.name) := by
  intro l
  induction l with
  | nil => intro idx ct k hv1 hv0; simp [fallbackSchedule] at hv1
  | cons a rest ih =>
      intro idx ct k hv1 hv0
      cases k with
      | zero =>
          cases rest with
          | nil => simp [fallbackSchedule] at hv1
          | cons b rest' =>
              simp only [fallbackSchedule, List.get]
              dsimp only [mkFallbackVisit, fallbackAdvance]
              simp only [Option.map_some', Option.some.injEq]
              ring
      | succ k' =>
          have hv1' : k' + 1 < (fallbackSchedule traffic rest (idx + 1)
              (ct + fallbackAdvance traffic a rest)).length := by
            simpa [fallbackSchedule] using hv1
          have hv0' : k' < (fallbackSchedule traffic rest (idx + 1)
              (ct + fallbackAdvance traffic a rest)).length := by
            simpa [fallbackSchedule] using hv0
          have := ih (idx + 1) (ct + fallbackAdvance traffic a rest) k' hv1' hv0'
          simpa [fallbackSchedule, List.get] using this

theorem fallbackSchedule_dur_nonneg (traffic : Option TrafficMatrix) :
    ∀ (l : List Attraction) (idx : Nat) (ct : Int),
      (∀ a ∈ l, 0 ≤ a.estimatedVisitTime) →
      ∀ v ∈ fallbackSchedule traffic l idx ct, 0 ≤ v.durationMin := by
  intro l
  induction l with
  | nil => intro idx ct _ v hv; simp [fallbackSchedule] at hv
  | cons a rest ih =>
      intro idx ct hc v hv
      simp only [fallbackSchedule, List.mem_cons] at hv
      rcases hv with rfl | hv'
      · exact jsOrI_est_nonneg (hc a (List.mem_cons_self a rest))
      · exact ih (idx + 1) (ct + fallbackAdvance traffic a rest)
          (fun x hx => hc x (List.mem_cons_of_mem a hx)) v hv'

theorem fallbackSchedule_start_some (traffic : Option TrafficMatrix) :
    ∀ (l : List Attraction) (idx : Nat) (ct : Int),
      ∀ v ∈ fallbackSchedule traffic l idx ct, ∃ s, v.startMin = some s := by
  intro l
  induction l with
  | nil => intro idx ct v hv; simp [fallbackSchedule] at hv
  | cons a rest ih =>
      intro idx ct v hv
      simp only [fallbackSchedule, List.mem_cons] at hv
      rcases hv with rfl | hv'
      · exact ⟨ct, rfl⟩
      · exact ih (idx + 1) (ct + fallbackAdvance traffic a rest) v hv'

theorem fallbackSchedule_start_lt (traffic : Option TrafficMatrix)
    (l : List Attraction) (idx : Nat) (ct : Int)
    (hc : ∀ a ∈ l, 0 ≤ a.estimatedVisitTime) :
    ∀ k (hv1 : k + 1 < (fallbackSchedule traffic l idx ct).length)
      (hv0 : k < (fallbackSchedule traffic l idx ct).length),
      jsLtOpt ((fallbackSchedule traffic l idx ct).get ⟨k, hv0⟩).startMin
        ((fallbackSchedule traffic l idx ct).get ⟨k + 1, hv1⟩).startMin := by
  intro k hv1 hv0
  have hstep := fallbackSchedule_consec traffic l idx ct k hv1 hv0
  have hmem := (fallbackSchedule traffic l idx ct).get_mem k hv0
  have hend := fallbackSchedule_end traffic l idx ct _ hmem
  have hdur := fallbackSchedule_dur_nonneg traffic l idx ct hc _ hmem
  have htravel := specTravelTime_pos traffic
    ((fallbackSchedule traffic l idx ct).get ⟨k, hv0⟩).attraction.name
    ((fallbackSchedule traffic l idx ct).get ⟨k + 1, hv1⟩).attraction.name
  obtain ⟨s, hs⟩ := fallbackSchedule_start_some traffic l idx ct _ hmem
  rw [hs] at hend
  rw [hstep, hend, hs]
  simp only [Option.map_some']
  exact jsLtOpt_some (by linarith)

theorem getPriceEstimate_mem {s : String} (hp : s ∉ objectProtoMembers) :
    getPriceEstimate s ∈
      ([some 0, some 25, some 125, some 350, some 750] : List (Option Int)) := by
  unfold getPriceEstimate
  split
  · simp
  · split
    · simp
    · split
      · simp
      · split
        · simp
        · split
          · simp
          · split
            · rename_i hc
              exact absurd (List.elem_iff.mp hc) hp
            · simp

theorem getPriceEstimate_default {s : String}
    (h : s ∉ (["free", "low", "medium", "high", "luxury"] : List String))
    (hp : s ∉ objectProtoMembers) :
    getPriceEstimate s = some 0 := by
  simp only [List.mem_cons, List.mem_singleton, not_or] at h
  obtain ⟨h1, h2, h3, h4, h5, _⟩ := h
  have hc : objectProtoMembers.contains s = false := by
    rcases hcc : objectProtoMembers.contains s with _ | _
    · rfl
    · exact absurd (List.elem_iff.mp hcc) hp
  simp [getPriceEstimate, h1, h2, h3, h4, h5, hc, hp]

theorem selectFallbackBase_subset (text : String) (catalog : List Attraction)
    (wpref : String) :
    ∀ a ∈ selectFallbackBase text catalog wpref, a ∈ catalog := by
  intro a ha
  unfold selectFallbackBase at ha
  split at ha
  · rcases List.mem_append.mp ha with h | h
    · exact List.mem_of_mem_filter (List.take_subset 2 _ h)
    · exact List.mem_of_mem_filter (List.take_subset 2 _ h)
  · exact List.mem_of_mem_filter (List.take_subset 5 _ ha)

theorem topUpSelection_subset (catalog selected : List Attraction)
    (hsub : ∀ a ∈ selected, a ∈ catalog) :
    ∀ a ∈ topUpSelection catalog selected, a ∈ catalog := by
  intro a ha
  unfold topUpSelection at ha
  split at ha
  · exact List.take_subset 4 catalog ha
  · split at ha
    · rcases List.mem_append.mp ha with h | h
      · exact hsub a h
      · exact List.mem_of_mem_filter (List.take_subset _ _ h)
    · exact hsub a ha

theorem selectFallback_subset (text : String) (catalog : List Attraction) (wpref : String) :
    ∀ a ∈ selectFallbackAttractions text catalog wpref, a ∈ catalog :=
  topUpSelection_subset catalog _ (selectFallbackBase_subset text catalog wpref)

theorem filter_unmatched_length (catalog selected : List Attraction)
    (hnd : (catalog.map (·.id)).Nodup) :
    catalog.length - selected.length ≤
      (catalog.filter (fun a => !(selected.any (fun s => s.id = a.id)))).length := by
  have hsplit := List.length_eq_length_filter_add
    (l := catalog) (fun a => selected.any (fun s => decide (s.id = a.id)))
  have hmatched :
      (catalog.filter (fun a => selected.any (fun s => decide (s.id = a.id)))).length ≤
        selected.length := by
    have hsub :
        ((catalog.filter (fun a => selected.any (fun s => decide (s.id = a.id)))).map
          (·.id)) ⊆ selected.map (·.id) := by
      intro x hx
      obtain ⟨a, ha, rfl⟩ := List.mem_map.mp hx
      have hp := List.of_mem_filter ha
      obtain ⟨s, hs, hsid⟩ := List.any_eq_true.mp hp
      have : s.id = a.id := of_decide_eq_true hsid
      exact List.mem_map.mpr ⟨s, hs, this⟩
    have hnd1 :
        ((catalog.filter (fun a => selected.any (fun s => decide (s.id = a.id)))).map
          (·.id)).Nodup := by
      have hsl := List.filter_sublist
        (p := fun a => selected.any (fun s => decide (s.id = a.id))) catalog
      exact List.Nodup.sublist (List.Sublist.map (·.id) hsl) hnd
    have hle := (List.subperm_of_subset hnd1 hsub).length_le
    simpa using hle
  have hgoal :
      (catalog.filter (fun a => !(selected.any (fun s => s.id = a.id)))).length =
        (catalog.filter
          ((! ·) ∘ fun a => selected.any (fun s => decide (s.id = a.id)))).length := by
    rfl
  rw [hgoal]
  have hsplit' : catalog.length =
      (catalog.filter (fun a => selected.any (fun s => decide (s.id = a.id)))).length +
        (catalog.filter
          ((! ·) ∘ fun a => selected.any (fun s => decide (s.id = a.id)))).length := by
    simpa using hsplit
  omega

theorem topUpSelection_length3 (catalog selected : List Attraction)
    (hnd : (catalog.map (·.id)).Nodup) (hlen : 3 ≤ catalog.length) :
    3 ≤ (topUpSelection catalog selected).length := by
  unfold topUpSelection
  split
  · rw [List.length_take]
    omega
  · split
    · rename_i h0 h3
      rw [List.length_append, List.length_take]
      have hf := filter_unmatched_length catalog selected hnd
      omega
    · omega

theorem extractItems_mem (resp : List Char) (catalog : List Attraction) :
    ∀ it ∈ extractItems resp catalog, it.attraction ∈ catalog := by
  intro it hit
  unfold extractItems at hit
  obtain ⟨block, _, hsome⟩ := List.mem_filterMap.mp hit
  split at hsome
  · exact absurd hsome (by simp)
  · split at hsome
    · rename_i aid name hid hname
      split at hsome
      · rename_i foundAttraction hfind
        simp only [Option.some.injEq] at hsome
        have : it.attraction = foundAttraction := by rw [← hsome]
        rw [this]
        exact List.mem_of_find?_eq_some hfind
      · exact absurd hsome (by simp)
    · exact absurd hsome (by simp)

theorem buildMentionedItems_mem :
    ∀ (l : List Attraction) (idx : Nat) it, it ∈ buildMentionedItems l idx →
      it.attraction ∈ l := by
  intro l
  induction l with
  | nil => intro idx it h; simp [buildMentionedItems] at h
  | cons a rest ih =>
      intro idx it h
      simp only [buildMentionedItems, List.mem_cons] at h
      rcases h with rfl | h'
      · exact List.mem_cons_self a rest
      · exact List.mem_cons_of_mem a (ih (idx + 1) it h')

theorem buildExtractVisits_mem :
    ∀ (items : List ExtractItem) (idx : Nat) v, v ∈ buildExtractVisits items idx →
      ∃ it ∈ items, v.attraction = it.attraction ∧
        v.estimatedCost = getPriceEstimate it.attraction.priceRange := by
  intro items
  induction items with
  | nil => intro idx v h; simp [buildExtractVisits] at h
  | cons it rest ih =>
      intro idx v h
      simp only [buildExtractVisits, List.mem_cons] at h
      rcases h with rfl | h'
      · exact ⟨it, List.mem_cons_self it rest, rfl, rfl⟩
      · obtain ⟨it', hm, he⟩ := ih (idx + 1) v h'
        exact ⟨it', List.mem_cons_of_mem it hm, he⟩

theorem extractAttractionsList_mem (resp : List Char) (catalog : List Attraction) :
    ∀ it ∈ extractAttractionsList resp catalog, it.attraction ∈ catalog := by
  intro it hit
  unfold extractAttractionsList at hit
  split at hit
  · have := buildMentionedItems_mem _ 0 it hit
    exact List.mem_of_mem_filter (List.take_subset 4 _ this)
  · exact extractItems_mem resp catalog it hit

theorem packExtractPlan_inv {items : List ExtractItem} {ep : ExtractPlan}
    (h : packExtractPlan items = some ep) :
    ep.visits = buildExtractVisits items 0 := by
  unfold packExtractPlan at h
  split at h
  · exact absurd h (by simp)
  · simp only [Option.some.injEq] at h
    rw [← h]

theorem extractTripPlan_attraction_mem {resp : List Char} {catalog : List Attraction}
    {ep : ExtractPlan} (h : extractTripPlanFromText resp catalog = some ep) :
    ∀ v ∈ ep.visits, v.attraction ∈ catalog := by
  intro v hv
  rw [packExtractPlan_inv h] at hv
  obtain ⟨it, hm, hattr, _⟩ := buildExtractVisits_mem _ 0 v hv
  rw [hattr]
  exact extractAttractionsList_mem resp catalog it hm

theorem extractTripPlan_cost {resp : List Char} {catalog : List Attraction}
    {ep : ExtractPlan} (h : extractTripPlanFromText resp catalog = some ep) :
    ∀ v ∈ ep.visits, v.estimatedCost = getPriceEstimate v.attraction.priceRange := by
  intro v hv
  rw [packExtractPlan_inv h] at hv
  obtain ⟨it, _, hattr, hcost⟩ := buildExtractVisits_mem _ 0 v hv
  rw [hcost, hattr]

theorem processDirectTripPlan_inv {plan : AITripPlan} {catalog : List Attraction}
    {traffic : Option TrafficMatrix} {p : DirectPlan}
    (h : processDirectTripPlan plan catalog traffic = some p) :
    processSchedule plan catalog traffic = some p.visits ∧
    p.totalTime = jsOrOpt plan.totalDuration
      ((p.visits.map (fun v => jsOrI v.attraction.estimatedVisitTime 120)).sum) ∧
    p.totalCost = jsOrCost plan.estimatedCost (optSum (p.visits.map (·.estimatedCost))) := by
  unfold processDirectTripPlan at h
  cases hps : processSchedule plan catalog traffic with
  | none => rw [hps] at h; simp at h
  | some vs =>
      rw [hps] at h
      simp only [Option.some.injEq] at h
      subst h
      exact ⟨rfl, rfl, rfl⟩

theorem processSchedule_inv {plan : AITripPlan} {catalog : List Attraction}
    {traffic : Option TrafficMatrix} {vs : List PlannedVisit}
    (h : processSchedule plan catalog traffic = some vs) :
    (plan.selectedAttractions = [] ∧ vs = []) ∨
    (∃ first rest ct0, plan.selectedAttractions = first :: rest ∧
      firstStartMin first.suggestedTime = some ct0 ∧
      scheduleCore catalog traffic (first :: rest) 0 ct0 = some vs) := by
  unfold processSchedule at h
  split at h
  · rename_i hsel
    simp only [Option.some.injEq] at h
    exact Or.inl ⟨hsel, h.symm⟩
  · rename_i first tail hsel
    split at h
    · exact absurd h (by simp)
    · rename_i ct0 hstart
      rw [hsel] at h
      exact Or.inr ⟨first, tail, ct0, hsel, hstart, h⟩

theorem fallback_visits_eq (userText : String) (catalog : List Attraction)
    (rt : RealTimeData) :
    (getDirectFallbackTripPlan userText catalog rt).visits =
      fallbackSchedule rt.traffic
        (selectFallbackAttractions (jsToLower userText) catalog (weatherPreference rt))
        0 540 := rfl

/-- C1 counterexample: the generator plan `plan1` carries (wrong) aggregate
fields `totalDuration = 999`, `estimatedCost = 777`; the produced itinerary
parses fine yet its totals are those aggregates, not the sums of the
per-visit values (60 and 25) — upstream aggregates ARE trusted when truthy. -/
theorem claim1_counterexample :
    (processDirectTripPlan plan1 [attA] none).map totalsAreSumsB = some false := by
  decide

/-- C1 (corrected): for every itinerary parsed from generator output, the
total duration equals the generator's `totalDuration` whenever that field is
present and nonzero, and only otherwise is recomputed — as the sum of the
catalog visit times (default 120), not of the scheduled per-visit durations;
total cost likewise equals the generator's `estimatedCost` when truthy and
the sum of per-visit cost estimates otherwise. -/
theorem claim1_amended (plan : AITripPlan) (catalog : List Attraction)
    (traffic : Option TrafficMatrix) (p : DirectPlan)
    (h : processDirectTripPlan plan catalog traffic = some p) :
    (∀ d, plan.totalDuration = some d → d ≠ 0 → p.totalTime = d) ∧
    (plan.totalDuration = none ∨ plan.totalDuration = some 0 →
      p.totalTime = (p.visits.map (fun v => jsOrI v.attraction.estimatedVisitTime 120)).sum) ∧
    (∀ c, plan.estimatedCost = some c → c ≠ 0 → p.totalCost = some c) ∧
    (plan.estimatedCost = none ∨ plan.estimatedCost = some 0 →
      p.totalCost = optSum (p.visits.map (·.estimatedCost))) := by
  obtain ⟨-, ht, hc⟩ := processDirectTripPlan_inv h
  refine ⟨?_, ?_, ?_, ?_⟩
  · intro d hd hd0
    rw [ht, hd]
    simp [jsOrOpt, hd0]
  · rintro (hd | hd) <;> rw [ht, hd] <;> simp [jsOrOpt]
  · intro c hcp hc0
    rw [hc, hcp]
    simp [jsOrCost, hc0]
  · rintro (hcp | hcp) <;> rw [hc, hcp] <;> simp [jsOrCost]

/-- Witness for C1's amended theorem at the concrete fixture. -/
theorem claim1_amended_witness :
    plan1out.totalTime = 999 ∧ plan1out.totalCost = some 777 :=
  ⟨(claim1_amended plan1 [attA] none plan1out rfl).1 999 rfl (by decide),
   (claim1_amended plan1 [attA] none plan1out rfl).2.2.1 777 rfl (by decide)⟩

/-- C2 counterexample: with catalog `[attA, attB]` and a 200-minute matrix
route between the two resolved stops, a generator selection whose second id
is fabricated schedules the second visit only 90 minutes after the first
ends, violating start(i+1) ≥ end(i) + (matrix lookup for that pair). -/
theorem claim2_counterexample :
    (processDirectTripPlan plan2 [attA, attB] (some tmBA)).map
      (fun p => specGapOkB (some tmBA) p.visits) = some false := by
  decide

/-- C2 (corrected): in the generator-path scheduler each visit's start clock
is exactly the previous end clock plus the travel time the code uses — the
traffic lookup only when the next *selected id* resolves strictly in the
catalog and the lookup is positive, else the 90-minute default — with the
`NaN` clock propagating through the addition (`Option.map`) when the first
suggested time was truthy but unparseable; in the fallback scheduler each
visit starts exactly at the previous end plus the claim's looked-up-or-90
travel time between the two stops (so ≥ holds there as stated). -/
theorem claim2_amended (plan : AITripPlan) (catalog : List Attraction)
    (traffic : Option TrafficMatrix) (p : DirectPlan) (userText : String)
    (rt : RealTimeData) (h : processDirectTripPlan plan catalog traffic = some p) :
    (∀ k (hv1 : k + 1 < p.visits.length) (hv0 : k < p.visits.length)
        (hs1 : k + 1 < plan.selectedAttractions.length),
      (p.visits.get ⟨k + 1, hv1⟩).startMin =
        (p.visits.get ⟨k, hv0⟩).endMin.map
          (fun e => e + stepTravel catalog traffic (p.visits.get ⟨k, hv0⟩).attraction
            (plan.selectedAttractions.get ⟨k + 1, hs1⟩).attractionId)) ∧
    (∀ k (hv1 : k + 1 < (getDirectFallbackTripPlan userText catalog rt).visits.length)
        (hv0 : k < (getDirectFallbackTripPlan userText catalog rt).visits.length),
      ((getDirectFallbackTripPlan userText catalog rt).visits.get ⟨k + 1, hv1⟩).startMin =
        ((getDirectFallbackTripPlan userText catalog rt).visits.get ⟨k, hv0⟩).endMin.map
          (fun e => e + specTravelTime rt.traffic
            (((getDirectFallbackTripPlan userText catalog rt).visits.get
              ⟨k, hv0⟩).attraction.name)
            (((getDirectFallbackTripPlan userText catalog rt).visits.get
              ⟨k + 1, hv1⟩).attraction.name))) := by
  constructor
  · obtain ⟨hps, -, -⟩ := processDirectTripPlan_inv h
    rcases processSchedule_inv hps with ⟨hsel, -⟩ | ⟨first, rest, ct0, hsel, -, hsched⟩
    · rw [hsel]
      intro k hv1 hv0 hs1
      exact absurd hs1 (by simp)
    · rw [hsel]
      intro k hv1 hv0 hs1
      exact scheduleCore_consec hsched k hv1 hv0 hs1
  · intro k hv1 hv0
    exact fallbackSchedule_consec rt.traffic _ 0 540 k hv1 hv0

/-- Witness for C2's amended theorem at the concrete fixture. -/
theorem claim2_amended_witness :
    (plan2out.visits.get ⟨1, by decide⟩).startMin =
      (plan2out.visits.get ⟨0, by decide⟩).endMin.map
        (fun e => e + stepTravel [attA, attB] (some tmBA)
          (plan2out.visits.get ⟨0, by decide⟩).attraction
          ((plan2.selectedAttractions.get ⟨1, by decide⟩).attractionId)) :=
  (claim2_amended plan2 [attA, attB] (some tmBA) plan2out "x" rtEmpty rfl).1
    0 (by decide) (by decide) (by decide)

/-- C3 (confirmed): when the incoming fingerprint (truncated request text,
arrival timestamp) equals the one already in flight, `generateDirectTripPlan`
returns the rule-based fallback plan immediately and issues zero generator
calls. -/
theorem claim3_dedup (st : Option (String × Nat)) (userText : String)
    (catalog : List Attraction) (rt : RealTimeData) (now : Nat) (isAvailable : Bool)
    (traffic : Option TrafficMatrix) (resp : Option String)
    (h : st = some (requestKey userText now)) :
    generateDirectTripPlan st userText catalog rt now isAvailable traffic resp =
      ({ outcome := Outcome.fallback (getDirectFallbackTripPlan userText catalog rt)
         generatorCalls := 0 }, st) := by
  unfold generateDirectTripPlan
  rw [if_pos h]

/-- Witness for C3 at a concrete duplicate request. -/
theorem claim3_dedup_witness :
    generateDirectTripPlan (some (requestKey "temple tour" 42)) "temple tour" [attA]
        rtEmpty 42 true none (some "raw") =
      ({ outcome := Outcome.fallback (getDirectFallbackTripPlan "temple tour" [attA] rtEmpty)
         generatorCalls := 0 }, some (requestKey "temple tour" 42)) :=
  claim3_dedup _ _ _ _ _ _ _ _ rfl

/-- C4 counterexample: a fallback itinerary over a one-entry catalog has
visit ordinal 1, not 0 — ordinals are contiguous from 1, so the claimed
"contiguous starting at 0 and strictly increasing starts" conjunction is
false on a pipeline-produced itinerary. -/
theorem claim4_counterexample :
    (ordinalsFromZeroB (getDirectFallbackTripPlan "city walk" [attA] rtEmpty).visits &&
      startsStrictIncrB (getDirectFallbackTripPlan "city walk" [attA] rtEmpty).visits) =
      false := by
  decide

/-- C4 (corrected): the scheduler-assigned ordinals
(`aiRecommendation.priority`, and the fallback's `priority`) are contiguous
starting at 1, and start times are strictly increasing with ordinal position
provided the catalog visit times and any generator-supplied durations are
nonnegative and the first suggested time parses to a number (an unparseable
truthy first time turns every start into the `NaN` clock, on which the
code's `<` is false). -/
theorem claim4_amended (plan : AITripPlan) (catalog : List Attraction)
    (traffic : Option TrafficMatrix) (p : DirectPlan) (userText : String)
    (rt : RealTimeData) (h : processDirectTripPlan plan catalog traffic = some p)
    (hc : ∀ a ∈ catalog, 0 ≤ a.estimatedVisitTime)
    (hd : ∀ s ∈ plan.selectedAttractions, 0 ≤ s.duration.getD 0)
    (hf : firstTimeParses plan) :
    (∀ k (hk : k < p.visits.length), (p.visits.get ⟨k, hk⟩).aiPriority = (k : Int) + 1) ∧
    (∀ k (hv1 : k + 1 < p.visits.length) (hv0 : k < p.visits.length),
      jsLtOpt (p.visits.get ⟨k, hv0⟩).startMin (p.visits.get ⟨k + 1, hv1⟩).startMin) ∧
    (∀ k (hk : k < (getDirectFallbackTripPlan userText catalog rt).visits.length),
      ((getDirectFallbackTripPlan userText catalog rt).visits.get ⟨k, hk⟩).priority =
        Json.num ((k : Int) + 1)) ∧
    (∀ k (hv1 : k + 1 < (getDirectFallbackTripPlan userText catalog rt).visits.length)
        (hv0 : k < (getDirectFallbackTripPlan userText catalog rt).visits.length),
      jsLtOpt ((getDirectFallbackTripPlan userText catalog rt).visits.get ⟨k, hv0⟩).startMin
        ((getDirectFallbackTripPlan userText catalog rt).visits.get
          ⟨k + 1, hv1⟩).startMin) := by
  obtain ⟨hps, -, -⟩ := processDirectTripPlan_inv h
  have hd' : ∀ s ∈ plan.selectedAttractions, ∀ d, s.duration = some d → 0 ≤ d := by
    intro s hs d hdd
    have := hd s hs
    rw [hdd] at this
    simpa using this
  refine ⟨?_, ?_, ?_, ?_⟩
  · intro k hk
    rcases processSchedule_inv hps with ⟨-, hnil⟩ | ⟨first, rest, ct0, -, -, hsched⟩
    · rw [hnil] at hk
      exact absurd hk (by simp)
    · have := scheduleCore_aiPriority hsched k hk
      rw [this]
      push_cast
      ring
  · intro k hv1 hv0
    rcases processSchedule_inv hps with ⟨-, hnil⟩ | ⟨first, rest, ct0, hsel, hst, hsched⟩
    · rw [hnil] at hv0
      exact absurd hv0 (by simp)
    · obtain ⟨c0, hc0⟩ := hf first rest hsel
      rw [hst] at hc0
      simp only [Option.some.injEq] at hc0
      subst hc0
      have hd'' : ∀ s ∈ (first :: rest), ∀ d, s.duration = some d → 0 ≤ d := by
        rw [← hsel]; exact hd'
      exact scheduleCore_start_lt hsched hc hd'' k hv1 hv0
  · intro k hk
    have h1 := fallbackSchedule_priority rt.traffic
      (selectFallbackAttractions (jsToLower userText) catalog (weatherPreference rt)) 0 540 k hk
    have h2 : Json.num (((0 : Nat) : Int) + k + 1) = Json.num ((k : Int) + 1) := by
      congr 1
      push_cast
      ring
    exact h1.trans h2
  · intro k hv1 hv0
    have hc' : ∀ a ∈ selectFallbackAttractions (jsToLower userText) catalog
        (weatherPreference rt), 0 ≤ a.estimatedVisitTime := by
      intro a ha
      exact hc a (selectFallback_subset _ _ _ a ha)
    exact fallbackSchedule_start_lt rt.traffic _ 0 540 hc' k hv1 hv0

/-- Witness for C4's amended theorem at the concrete fixture. -/
theorem claim4_amended_witness :
    (plan2out.visits.get ⟨0, by decide⟩).aiPriority = (0 : Int) + 1 ∧
    jsLtOpt (plan2out.visits.get ⟨0, by decide⟩).startMin
      (plan2out.visits.get ⟨1, by decide⟩).startMin :=
  ⟨(claim4_amended plan2 [attA, attB] (some tmBA) plan2out "x" rtEmpty rfl
      (by decide) (by decide)
      (fun first rest hsel => by
        injection hsel with h1 h2
        subst h1
        exact ⟨540, rfl⟩)).1 0 (by decide),
   (claim4_amended plan2 [attA, attB] (some tmBA) plan2out "x" rtEmpty rfl
      (by decide) (by decide)
      (fun first rest hsel => by
        injection hsel with h1 h2
        subst h1
        exact ⟨540, rfl⟩)).2.1 0 (by decide) (by decide)⟩

/-- C5 (confirmed): an empty generator reply surfaces no error — the pipeline
returns the rule-based fallback plan (one generator call was made, the
context with fetched traffic preserved), and that plan has at least 3 visits
whenever the catalog has at least 3 attractions (with distinct ids). -/
theorem claim5_empty_generator (st : Option (String × Nat)) (userText : String)
    (catalog : List Attraction) (rt : RealTimeData) (now : Nat)
    (traffic : Option TrafficMatrix)
    (hdedup : st ≠ some (requestKey userText now))
    (hnd : (catalog.map (·.id)).Nodup) (hlen : 3 ≤ catalog.length) :
    generateDirectTripPlan st userText catalog rt now true traffic (some "") =
      ({ outcome := Outcome.fallback
           (getDirectFallbackTripPlan userText catalog (rt.withTraffic traffic))
         generatorCalls := 1 }, some (requestKey userText now)) ∧
    3 ≤ (getDirectFallbackTripPlan userText catalog (rt.withTraffic traffic)).visits.length := by
  constructor
  · unfold generateDirectTripPlan
    rw [if_neg hdedup]
    rfl
  · rw [fallback_visits_eq, fallbackSchedule_length]
    unfold selectFallbackAttractions
    exact topUpSelection_length3 _ _ hnd hlen

/-- Witness for C5 on a 3-entry catalog. -/
theorem claim5_empty_generator_witness :
    generateDirectTripPlan none "any trip" [attA, attB, attC] rtEmpty 1 true none (some "") =
      ({ outcome := Outcome.fallback
           (getDirectFallbackTripPlan "any trip" [attA, attB, attC]
             (rtEmpty.withTraffic none))
         generatorCalls := 1 }, some (requestKey "any trip" 1)) ∧
    3 ≤ (getDirectFallbackTripPlan "any trip" [attA, attB, attC]
        (rtEmpty.withTraffic none)).visits.length :=
  claim5_empty_generator none "any trip" [attA, attB, attC] rtEmpty 1 none
    (by decide) (by decide) (by decide)

/-- C6 counterexample: on the scenario request and the
one-cultural/one-food/one-nature catalog under clear weather, the fallback
output does NOT exclude the nature site (the minimum-3 top-up re-adds it), so
the claimed selects-and-excludes conjunction is false. -/
theorem claim6_counterexample :
    ¬ (("c1" ∈ ((getDirectFallbackTripPlan c6text c6cat rtClear).visits.map
          (·.attraction.id))) ∧
       ("f1" ∈ ((getDirectFallbackTripPlan c6text c6cat rtClear).visits.map
          (·.attraction.id))) ∧
       ("n1" ∉ ((getDirectFallbackTripPlan c6text c6cat rtClear).visits.map
          (·.attraction.id)))) := by
  decide

/-- C6 (corrected): the combined-intent selection itself picks exactly the
cultural site and the food site (excluding the nature site), but the
minimum-count top-up then re-adds the nature site, so the final output visits
are cultural, food and nature in that order. -/
theorem claim6_amended :
    weatherPreference rtClear = "any" ∧
    selectFallbackBase (jsToLower c6text) c6cat (weatherPreference rtClear) =
      [c6cult, c6food] ∧
    ((getDirectFallbackTripPlan c6text c6cat rtClear).visits.map (·.attraction.id)) =
      ["c1", "f1", "n1"] := by
  refine ⟨rfl, by decide, by decide⟩

/-- C7 counterexample: the Tier-3 sequence is not idempotent on all strings —
on `",,}` the first pass collapses the comma run to `",}` and only the second
pass removes the now-exposed trailing comma. -/
theorem claim7_counterexample :
    tier3Clean (tier3Clean commaRunInput) ≠ tier3Clean commaRunInput := by
  decide

/-- C7 (corrected): double application is not always the identity on one
application (see the counterexample); it is on the pipeline's reconstructed
payload for the documented malformed scenario — one Tier-3 pass is a
fixpoint there. -/
theorem claim7_amended :
    extractJsonCandidate c8raw = some c8candidate ∧
    tier3Clean (tier3Clean c8candidate) = tier3Clean c8candidate := by
  exact ⟨by decide, by decide⟩

/-- C8 (code bug): on the spec's malformed scenario text the Tier-3 passes do
NOT produce a deserializable string (the `"09: "00` fragment and the
unterminated `"120}` value survive cleaning), and the ensuing Tier-4 text
extraction yields one item with time `"09: "` and the catalog default
duration 60 — not the required time `"09:00"` and numeric duration 120. -/
theorem claim8_tier3_fails :
    ((extractJsonCandidate c8raw).map (fun l => (parseJson (tier3Clean l)).isSome) =
      some false) ∧
    ((extractTripPlanFromText c8raw [c8attr]).map
        (fun p => p.visits.map (fun v => (v.plannedStartTime, v.durationMin))) =
      some [("09: ", 60)]) := by
  exact ⟨by decide, by decide⟩

/-- C9 (confirmed): for a nonempty catalog, every attraction referenced by a
produced itinerary — parsed-generator path, text-extraction path, or
rule-based fallback — is an element of the candidate catalog. -/
theorem claim9_referential_integrity (plan : AITripPlan) (catalog : List Attraction)
    (traffic : Option TrafficMatrix) (p : DirectPlan) (resp : List Char)
    (ep : ExtractPlan) (userText : String) (rt : RealTimeData)
    (h1 : processDirectTripPlan plan catalog traffic = some p)
    (h2 : extractTripPlanFromText resp catalog = some ep) :
    (∀ v ∈ p.visits, v.attraction ∈ catalog) ∧
    (∀ v ∈ ep.visits, v.attraction ∈ catalog) ∧
    (∀ v ∈ (getDirectFallbackTripPlan userText catalog rt).visits,
      v.attraction ∈ catalog) := by
  refine ⟨?_, extractTripPlan_attraction_mem h2, ?_⟩
  · intro v hv
    obtain ⟨hps, -, -⟩ := processDirectTripPlan_inv h1
    rcases processSchedule_inv hps with ⟨-, hnil⟩ | ⟨first, rest, ct0, -, -, hsched⟩
    · rw [hnil] at hv
      simp at hv
    · exact scheduleCore_attraction_mem hsched v hv
  · intro v hv
    rw [fallback_visits_eq] at hv
    have hm := fallbackSchedule_mem_src rt.traffic _ 0 540 v hv
    exact selectFallback_subset _ _ _ v.attraction hm

/-- Witness for C9: a concrete visit of the parsed-generator fixture lies in
its catalog. -/
theorem claim9_referential_integrity_witness :
    (⟨c8attr, Json.num 1, 1, some 540, 60, some 600, some 25, Json.num 1⟩ :
      PlannedVisit).attraction ∈ [c8attr] :=
  (claim9_referential_integrity plan3 [c8attr] none plan3out c8raw
      ⟨[⟨c8attr, 1, 1, "09: ", none, 60, some 25⟩], some 25⟩ "x" rtEmpty rfl rfl).1
    ⟨c8attr, Json.num 1, 1, some 540, 60, some 600, some 25, Json.num 1⟩
    (List.mem_singleton.mpr rfl)

/-- C10 counterexample: the claimed "0 for any key outside the five tiers"
is false of the code — `priceRangeValues[priceRange] || 0` walks the
prototype chain, so a key such as `"constructor"` (outside the tier table)
returns the truthy inherited `Object.prototype` member, not `0`. -/
theorem claim10_counterexample :
    "constructor" ∉ (["free", "low", "medium", "high", "luxury"] : List String) ∧
    getPriceEstimate "constructor" ≠ some 0 ∧
    getPriceEstimate "constructor" = none := by
  decide

/-- C10 (corrected): `getPriceEstimate` returns 0 for a key outside the five
price tiers provided the key is not an inherited `Object.prototype` member
name (for those the bracket access yields the truthy inherited member, which
`|| 0` passes through); consequently, over a catalog whose price ranges
avoid those member names, every per-visit cost estimate in any produced
itinerary (generator path, text extraction, fallback) is one of
0, 25, 125, 350, 750. -/
theorem claim10_amended (plan : AITripPlan) (catalog : List Attraction)
    (traffic : Option TrafficMatrix) (p : DirectPlan) (resp : List Char)
    (ep : ExtractPlan) (userText : String) (rt : RealTimeData)
    (h1 : processDirectTripPlan plan catalog traffic = some p)
    (h2 : extractTripPlanFromText resp catalog = some ep)
    (hpr : ∀ a ∈ catalog, a.priceRange ∉ objectProtoMembers) :
    (∀ s, s ∉ (["free", "low", "medium", "high", "luxury"] : List String) →
      s ∉ objectProtoMembers → getPriceEstimate s = some 0) ∧
    (∀ v ∈ p.visits,
      v.estimatedCost ∈ ([some 0, some 25, some 125, some 350, some 750] :
        List (Option Int))) ∧
    (∀ v ∈ ep.visits,
      v.estimatedCost ∈ ([some 0, some 25, some 125, some 350, some 750] :
        List (Option Int))) ∧
    (∀ v ∈ (getDirectFallbackTripPlan userText catalog rt).visits,
      v.estimatedCost ∈ ([some 0, some 25, some 125, some 350, some 750] :
        List (Option Int))) := by
  refine ⟨fun s hs hps => getPriceEstimate_default hs hps, ?_, ?_, ?_⟩
  · intro v hv
    obtain ⟨hps, -, -⟩ := processDirectTripPlan_inv h1
    rcases processSchedule_inv hps with ⟨-, hnil⟩ | ⟨first, rest, ct0, -, -, hsched⟩
    · rw [hnil] at hv
      simp at hv
    · rw [scheduleCore_cost hsched v hv]
      exact getPriceEstimate_mem (hpr _ (scheduleCore_attraction_mem hsched v hv))
  · intro v hv
    rw [extractTripPlan_cost h2 v hv]
    exact getPriceEstimate_mem (hpr _ (extractTripPlan_attraction_mem h2 v hv))
  · intro v hv
    rw [fallback_visits_eq] at hv
    rw [fallbackSchedule_cost rt.traffic _ 0 540 v hv]
    have hm := fallbackSchedule_mem_src rt.traffic _ 0 540 v hv
    exact getPriceEstimate_mem (hpr _ (selectFallback_subset _ _ _ v.attraction hm))

/-- Witness for C10's amended theorem at a key outside the tier table. -/
theorem claim10_amended_witness : getPriceEstimate "platinum" = some 0 :=
  (claim10_amended plan3 [c8attr] none plan3out c8raw
      ⟨[⟨c8attr, 1, 1, "09: ", none, 60, some 25⟩], some 25⟩ "x" rtEmpty rfl rfl
      (by decide)).1 "platinum" (by decide) (by decide)
